import Mathlib

/-!
Game of Fifteen (`fifteen.c`): the board engine.

A shallow embedding of the board engine of `fifteen.c` (`init`, `move`, `won`)
and the properties of it that the specification states.

The embedding:

* The two globals `int board[DIM_MAX][DIM_MAX]` and `int d` are passed explicitly.
* `board` is modelled as the memory around the base address of the array, in
  units of `int`: `board[i][j]` is the word at offset `DIM_MAX * i + j`.  Offsets
  `0 .. 80` are the array itself; the d-by-d grid of a game is the part with
  `0 ≤ i, j < d`.  `move` reads `board[r][c + 1]`, `board[r][c - 1]`,
  `board[r + 1][c]` and `board[r - 1][c]` *before* it tests the index against the
  bounds, so it reads words outside the grid (and, at the corners of a 9-by-9
  game, outside the array); the model gives such a read whatever value the memory
  holds there, and every theorem is stated for every content of the memory.
* All values stay far below `2^31` for `d ≤ 9`, so C `int` is `Int`.
* A function that returns `int` and updates `board` returns the pair of the new
  board and the returned value.
-/

namespace Fifteen

/-- Lower bound on the dimension: `#define DIM_MIN 3`. -/
def DIM_MIN : Int := 3

/-- Upper bound on the dimension and the row length of the backing array:
`#define DIM_MAX 9`. -/
def DIM_MAX : Int := 9

/-- Memory, in `int` words, indexed by the offset from `&board[0][0]`. -/
abbrev Board := Int → Int

/-- Offset of `board[i][j]` in the array `int board[DIM_MAX][DIM_MAX]`. -/
def idx (i j : Int) : Int := DIM_MAX * i + j

/-- The read `board[i][j]`. -/
def cell (board : Board) (i j : Int) : Int := board (idx i j)

/-- The assignment `board[i][j] = v`. -/
def store (board : Board) (i j v : Int) : Board :=
  fun a => if a = idx i j then v else board a

/-! ### `init` (lines 166-185) -/

/-- Body of the inner loop of `init`: `board[i][j] = maxNum; maxNum--;`.
The state is the board and `maxNum`. -/
def initStep (i j : Int) (st : Board × Int) : Board × Int :=
  (store st.1 i j st.2, st.2 - 1)

/-- Inner loop of `init`: `for (int j = 0; j < d; j++)` in row `i`. -/
def initRow (d : Int) (i : Int) (st : Board × Int) : Board × Int :=
  (List.range d.toNat).foldl (fun s (j : Nat) => initStep i (j : Int) s) st

/-- The two nested loops of `init`, started with `maxNum = d * d - 1`. -/
def initFill (d : Int) (board : Board) : Board × Int :=
  (List.range d.toNat).foldl (fun s (i : Nat) => initRow d (i : Int) s) (board, d * d - 1)

/-- The function `init`.  The test `(d * d) % 2 == 0` is on a non-negative
number, where C's `%` and `Int`'s `%` agree. -/
def init (d : Int) (board : Board) : Board :=
  let filled := (initFill d board).1
  if (d * d) % 2 = 0 then
    store (store filled (d - 1) (d - 3) 1) (d - 1) (d - 2) 2
  else
    filled

/-! ### `move` (lines 213-254) -/

/-- Inner search loop of `move` in row `i`: `if (board[i][j] == tile) { r = i; c = j; }`.
The state is `(r, c)`. -/
def findRow (d : Int) (board : Board) (tile : Int) (i : Int) (rc : Int × Int) : Int × Int :=
  (List.range d.toNat).foldl
    (fun s (j : Nat) => if cell board i (j : Int) = tile then (i, (j : Int)) else s) rc

/-- The search loops of `move`, started with `r = 0; c = 0`.  There is no
`break`: the last cell holding `tile` in row-major order wins, and `(0, 0)` is
left when no cell holds it. -/
def findTile (d : Int) (board : Board) (tile : Int) : Int × Int :=
  (List.range d.toNat).foldl (fun s (i : Nat) => findRow d board tile (i : Int) s) (0, 0)

/-- The function `move`: the new board and the returned `int`. -/
def move (d : Int) (board : Board) (tile : Int) : Board × Int :=
  let grid := d * d
  if tile > grid - 1 ∨ tile < 1 then
    (board, 0)
  else
    let r := (findTile d board tile).1
    let c := (findTile d board tile).2
    if cell board r (c + 1) = 0 ∧ c + 1 < d then
      (store (store board r (c + 1) (cell board r c)) r c 0, 1)
    else if cell board r (c - 1) = 0 ∧ c - 1 ≥ 0 then
      (store (store board r (c - 1) (cell board r c)) r c 0, 1)
    else if cell board (r + 1) c = 0 ∧ r + 1 < d then
      (store (store board (r + 1) c (cell board r c)) r c 0, 1)
    else if cell board (r - 1) c = 0 ∧ r - 1 ≥ 0 then
      (store (store board (r - 1) c (cell board r c)) r c 0, 1)
    else
      (board, 0)

/-- The board after the two assignments of a successful branch of `move`:
`board[r1][c1] = board[r][c]; board[r][c] = 0;`. -/
def slide (board : Board) (r c r1 c1 : Int) : Board :=
  store (store board r1 c1 (cell board r c)) r c 0

/-! ### `won` (lines 260-273) -/

/-- Inner loop of `won` over the columns `js` of row `i`, entered with
`checkCnt = cnt`: `none` when the loop leaves the function by `return 0`,
else `some` of the value of `checkCnt` at the end of the row. -/
def wonRow (board : Board) (i : Int) : List Nat → Int → Option Int
  | [], cnt => some cnt
  | j :: js, cnt =>
    if cell board i (j : Int) ≠ 0 ∧ cell board i (j : Int) ≠ cnt then none
    else wonRow board i js (cnt + 1)

/-- Outer loop of `won` over the rows `is`. -/
def wonRows (d : Int) (board : Board) : List Nat → Int → Option Int
  | [], cnt => some cnt
  | i :: is, cnt =>
    match wonRow board (i : Int) (List.range d.toNat) cnt with
    | none => none
    | some cnt1 => wonRows d board is cnt1

/-- The function `won`: `0` when a loop returned early, else `1`. -/
def won (d : Int) (board : Board) : Int :=
  match wonRows d board (List.range d.toNat) 1 with
  | none => 0
  | some _ => 1

/-! ### Observations of a game state -/

/-- The d-by-d grid, row by row. -/
def rows (d : Int) (board : Board) : List (List Int) :=
  (List.range d.toNat).map fun (i : Nat) =>
    (List.range d.toNat).map fun (j : Nat) => cell board (i : Int) (j : Int)

/-- The `d * d` cell values of the grid in row-major order. -/
def cells (d : Int) (board : Board) : List Int := (rows d board).flatten

/-- The positions of the grid in row-major order. -/
def positions (d : Int) : List (Nat × Nat) :=
  List.product (List.range d.toNat) (List.range d.toNat)

/-- Position `(i, j)` is a cell of the d-by-d grid. -/
def InGrid (d i j : Int) : Prop := 0 ≤ i ∧ i < d ∧ 0 ≤ j ∧ j < d

instance (d i j : Int) : Decidable (InGrid d i j) := by unfold InGrid; infer_instance

/-- Positions `(r, c)` and `(r1, c1)` are orthogonal neighbours. -/
def Adjacent (r c r1 c1 : Int) : Prop :=
  (r1 = r ∧ (c1 = c + 1 ∨ c1 = c - 1)) ∨ (c1 = c ∧ (r1 = r + 1 ∨ r1 = r - 1))

instance (r c r1 c1 : Int) : Decidable (Adjacent r c r1 c1) := by unfold Adjacent; infer_instance

/-- The values `0, 1, ..., d * d - 1`. -/
def tileValues (d : Int) : List Int := (List.range (d * d).toNat).map fun (k : Nat) => (k : Int)

/-- The cells of the grid are a permutation of `0 .. d * d - 1`. -/
def IsPermBoard (d : Int) (board : Board) : Prop := List.Perm (cells d board) (tileValues d)

instance (d : Int) (board : Board) : Decidable (IsPermBoard d board) := by
  unfold IsPermBoard; infer_instance

/-- The reversed layout in the specification's words: cell `(i, j)` holds
`(d * d - 1) - (i * d + j)`. -/
def reversedLayout (d i j : Int) : Int := (d * d - 1) - (i * d + j)

/-- The reference layout in the specification's words: the reversed layout, with
the values of the cells `(d - 1, d - 3)` and `(d - 1, d - 2)` exchanged when `d * d`
is even. -/
def referenceLayout (d i j : Int) : Int :=
  if (d * d) % 2 = 0 then
    if i = d - 1 ∧ j = d - 3 then reversedLayout d (d - 1) (d - 2)
    else if i = d - 1 ∧ j = d - 2 then reversedLayout d (d - 1) (d - 3)
    else reversedLayout d i j
  else
    reversedLayout d i j

/-- The memory of a fresh process: the static array is zero-initialised. -/
def zeroBoard : Board := fun _ => 0

/-- The board after `init` followed by `move` on each argument in turn. -/
def play (d : Int) (board : Board) (tiles : List Int) : Board :=
  tiles.foldl (fun b t => (move d b t).1) (init d board)

/-- A board given by its rows: `board[i][j]` is entry `j` of row `i`, and `0`
where the rows have no entry. -/
def ofRows (rs : List (List Int)) : Board :=
  fun a => ((rs.getD (a / DIM_MAX).toNat []).getD (a % DIM_MAX).toNat 0)

/-! ### Further observations and the variants of the specification -/

/-- The boards `b` and `b1` hold the same value in every cell of the d-by-d grid. -/
def GridEq (d : Int) (b b1 : Board) : Prop := ∀ i j, InGrid d i j → cell b i j = cell b1 i j

/-- The board after `move` on each argument in turn, started from `board`. -/
def playFrom (d : Int) (board : Board) (tiles : List Int) : Board :=
  tiles.foldl (fun b t => (move d b t).1) board

/-- The four directions in which `move` looks for the blank. -/
inductive Dir where
  | right
  | left
  | down
  | up
  deriving DecidableEq

/-- Row of the neighbour of `(r, c)` in a direction. -/
def Dir.row (r : Int) : Dir → Int
  | Dir.right => r
  | Dir.left => r
  | Dir.down => r + 1
  | Dir.up => r - 1

/-- Column of the neighbour of `(r, c)` in a direction. -/
def Dir.col (c : Int) : Dir → Int
  | Dir.right => c + 1
  | Dir.left => c - 1
  | Dir.down => c
  | Dir.up => c

/-- The bound test that `move` makes for a direction. -/
def Dir.inBounds (d r c : Int) : Dir → Prop
  | Dir.right => c + 1 < d
  | Dir.left => c - 1 ≥ 0
  | Dir.down => r + 1 < d
  | Dir.up => r - 1 ≥ 0

instance (d r c : Int) (dir : Dir) : Decidable (dir.inBounds d r c) := by
  cases dir <;> unfold Dir.inBounds <;> infer_instance

/-- The cascade of tests of `move` with the directions taken from a list, in its order:
the first direction whose neighbour holds `0` and passes the bound test gets the tile. -/
def tryDirs (d : Int) (board : Board) (r c : Int) : List Dir → Board × Int
  | [] => (board, 0)
  | dir :: rest =>
    if cell board (dir.row r) (dir.col c) = 0 ∧ dir.inBounds d r c then
      (slide board r c (dir.row r) (dir.col c), 1)
    else
      tryDirs d board r c rest

/-- The variant of `move` of the specification's design notes: the same range test
and search, then the neighbours tried in the order of the list `order`. -/
def moveWith (order : List Dir) (d : Int) (board : Board) (tile : Int) : Board × Int :=
  let grid := d * d
  if tile > grid - 1 ∨ tile < 1 then
    (board, 0)
  else
    tryDirs d board (findTile d board tile).1 (findTile d board tile).2 order

/-- The order in which `move` tries the neighbours. -/
def sourceOrder : List Dir := [Dir.right, Dir.left, Dir.down, Dir.up]

/-- The solved layout in the specification's words: tiles ascending in row-major
order, `board[i][j] == i*d+j+1`, and the blank in the last cell. -/
def solvedLayout (d i j : Int) : Int := if i = d - 1 ∧ j = d - 1 then 0 else i * d + j + 1

/-! ### A checker for solutions

The grid is coded as one number with a 7-bit field per cell, field `9 * r + c` for the
cell `(r, c)`; the checker follows a list of tiles on the code. -/

/-- Field `k` of the number `s` read as a sequence of 7-bit fields. -/
def fld (s k : Nat) : Nat := (s >>> (7 * k)) &&& 127

/-- The number `s` with `t` xor-ed into field `k`. -/
def flipFld (s k t : Nat) : Nat := s ^^^ (t <<< (7 * k))

/-- Hands `n` to `k` in evaluated form. -/
def forceNat {α : Type} (n : Nat) (k : Nat → α) : α :=
  match n with
  | 0 => k 0
  | m + 1 => k (m + 1)

/-- The code of the d-by-d grid that holds `layout r c` in cell `(r, c)`. -/
def encodeLayout (d : Nat) (layout : Int → Int → Int) : Nat :=
  (List.range d).foldl
    (fun s r => (List.range d).foldl
      (fun s c => flipFld s (9 * r + c) (layout (r : Int) (c : Int)).toNat) s) 0

/-- A neighbour of the blank `(br, bc)`: the one that holds `t` when there is one,
looked for on the right, on the left, below and above. -/
def findNbr (s br bc t : Nat) : Nat × Nat :=
  bif Nat.beq (fld s (9 * br + (bc + 1))) t then (br, bc + 1)
  else bif Nat.beq (fld s (9 * br + (bc - 1))) t then (br, bc - 1)
  else bif Nat.beq (fld s (9 * (br + 1) + bc)) t then (br + 1, bc)
  else (br - 1, bc)

/-- The tile `t` is in range, is at `(tr, tc)` on the coded grid `s`, and `(tr, tc)` is a
cell of the grid next to the cell `(br, bc)`. -/
def okMove (d s t tr tc br bc : Nat) : Bool :=
  Nat.ble (tr + 1) d && Nat.ble (tc + 1) d &&
  ((Nat.beq tr br && (Nat.beq tc (bc + 1) || Nat.beq bc (tc + 1))) ||
    (Nat.beq tc bc && (Nat.beq tr (br + 1) || Nat.beq br (tr + 1)))) &&
  Nat.beq (fld s (9 * tr + tc)) t &&
  Nat.ble 1 t && Nat.ble (t + 1) (d * d)

/-- Follows the tiles `ts` from the coded grid `s` with the blank at `(br, bc)`: every
tile must be next to the blank, and the last grid must hold 0 or `r * d + c + 1` in every
cell `(r, c)`. -/
def checkSol (d : Nat) : List Nat → Nat → Nat → Nat → Bool
  | [], s, _, _ =>
    decide (∀ r, r < d → ∀ c, c < d → fld s (9 * r + c) = 0 ∨ fld s (9 * r + c) = r * d + c + 1)
  | t :: ts, s, br, bc =>
    forceNat (findNbr s br bc t).1 fun tr => forceNat (findNbr s br bc t).2 fun tc =>
      okMove d s t tr tc br bc &&
      forceNat (flipFld (flipFld s (9 * tr + tc) t) (9 * br + bc) t) fun s1 =>
        checkSol d ts s1 tr tc

/-- The code of the grid that `init` leaves agrees with the reference layout, and the
tiles `ts` solve it. -/
def solves (d : Nat) (ts : List Nat) : Bool :=
  decide (∀ r, r < d → ∀ c, c < d →
    referenceLayout d r c = (fld (encodeLayout d (referenceLayout d)) (9 * r + c) : Nat)) &&
  forceNat (encodeLayout d (referenceLayout d)) fun s => checkSol d ts s (d - 1) (d - 1)

/-! ### Solutions of the boards of `init` -/

/-- A sequence of 32 tiles that solves the board of `init` for d = 3. -/
def solution3 : List Nat :=
  [3, 4, 1, 2, 5, 1, 7, 8, 1, 7, 2, 3, 4, 2, 8, 6, 2, 8, 3, 4, 8, 3, 6, 2,
    3, 6, 4, 5, 7, 4, 5, 8]

/-- A sequence of 90 tiles that solves the board of `init` for d = 4. -/
def solution4 : List Nat :=
  [2, 5, 6, 1, 5, 6, 9, 10, 1, 7, 11, 1, 14, 15, 1, 14, 10, 8, 4, 2, 6, 9, 2, 4,
    8, 2, 7, 10, 2, 13, 15, 2, 13, 8, 4, 7, 10, 5, 3, 11, 5, 3, 9, 10, 3, 13, 8, 4,
    12, 15, 4, 3, 7, 12, 15, 4, 3, 8, 14, 5, 13, 7, 12, 6, 10, 12, 6, 15, 8, 6, 7, 14,
    6, 7, 14, 9, 11, 13, 9, 14, 12, 10, 15, 12, 10, 11, 14, 10, 11, 15]

/-- A sequence of 270 tiles that solves the board of `init` for d = 5. -/
def solution5 : List Nat :=
  [5, 6, 1, 2, 7, 1, 11, 12, 1, 8, 13, 1, 17, 18, 1, 14, 19, 1, 23, 24, 1, 23, 18, 16,
    12, 11, 2, 5, 6, 10, 11, 2, 8, 17, 2, 12, 16, 2, 14, 18, 2, 22, 24, 2, 18, 13, 3, 7,
    17, 3, 13, 14, 3, 8, 12, 16, 22, 3, 16, 22, 21, 24, 3, 21, 22, 12, 5, 17, 7, 4, 9, 13,
    4, 7, 8, 4, 14, 16, 12, 5, 4, 12, 21, 22, 5, 4, 10, 11, 15, 20, 24, 5, 4, 15, 20, 24] ++
  ([5, 4, 15, 10, 17, 6, 11, 17, 6, 8, 12, 6, 10, 21, 6, 14, 16, 6, 22, 18, 6, 19, 23, 6,
    19, 16, 7, 12, 14, 22, 16, 7, 22, 16, 18, 19, 7, 18, 21, 10, 8, 11, 17, 20, 10, 8, 16, 21,
    8, 15, 19, 8, 18, 22, 12, 9, 13, 12, 21, 14, 9, 21, 14, 9, 11, 16, 9, 18, 15, 10, 24, 19,
    10, 9, 20, 24, 19, 10, 9, 15, 18, 11, 21, 14, 11, 18, 22, 11, 12, 23, 11, 12, 14, 13, 23, 14] ++
  ([18, 21, 13, 18, 21, 13, 16, 20, 15, 22, 13, 21, 14, 23, 18, 16, 21, 14, 16, 21, 20, 17, 24, 19,
    22, 15, 14, 20, 17, 24, 19, 22, 15, 14, 20, 16, 21, 18, 23, 21, 16, 17, 18, 23, 21, 16, 17, 20,
    22, 19, 24, 18, 23, 17, 20, 22, 18, 23, 22, 20, 17, 22, 23, 24, 19, 18, 20, 23, 24, 20, 18, 19,
    20, 24, 23, 18, 19, 20]))

/-- A sequence of 496 tiles that solves the board of `init` for d = 6. -/
def solution6 : List Nat :=
  [2, 7, 8, 1, 7, 8, 13, 14, 1, 9, 15, 1, 20, 21, 1, 16, 22, 1, 27, 28, 1, 23, 29, 1,
    34, 35, 1, 34, 28, 26, 25, 24, 18, 12, 6, 2, 8, 13, 2, 6, 14, 2, 9, 20, 2, 19, 21, 2,
    16, 27, 2, 25, 26, 2, 23, 28, 2, 33, 35, 2, 33, 23, 27, 15, 3, 7, 20, 16, 15, 3, 16, 15,
    25, 27, 3, 25, 27, 26, 23, 3, 26, 23, 32, 35, 3, 33, 28, 22, 10, 4, 7, 16, 4, 10, 25, 4] ++
  ([15, 27, 4, 26, 23, 4, 19, 21, 24, 32, 4, 24, 32, 31, 35, 4, 31, 32, 21, 9, 6, 14, 9, 6,
    27, 15, 10, 7, 5, 11, 7, 5, 16, 10, 5, 25, 26, 5, 15, 19, 5, 23, 24, 21, 6, 5, 21, 31,
    32, 6, 5, 9, 12, 18, 30, 35, 6, 5, 18, 30, 35, 6, 5, 32, 33, 28, 34, 29, 17, 7, 25, 26,
    22, 17, 7, 22, 17, 34, 29, 7, 34, 24, 31, 18, 30, 12, 14, 8, 13, 27, 8, 14, 9, 8, 19, 21] ++
  ([8, 30, 18, 8, 23, 31, 8, 33, 28, 8, 24, 29, 8, 28, 32, 18, 30, 9, 12, 30, 9, 23, 33, 9,
    18, 32, 9, 24, 28, 9, 24, 28, 31, 15, 10, 20, 21, 10, 15, 33, 10, 19, 23, 18, 28, 10, 18, 28,
    32, 24, 10, 31, 29, 17, 26, 16, 11, 25, 16, 11, 20, 15, 11, 26, 33, 11, 19, 18, 11, 29, 31, 32,
    30, 12, 28, 11, 32, 30, 12, 35, 24, 12, 11, 28, 35, 24, 12, 11, 28, 23, 27, 13, 14, 27, 18, 21] ++
  ([13, 18, 21, 13, 15, 19, 13, 32, 29, 13, 26, 33, 13, 31, 17, 13, 22, 34, 13, 17, 30, 28, 23, 21,
    18, 14, 27, 18, 14, 15, 32, 14, 21, 29, 14, 26, 31, 14, 28, 30, 14, 22, 17, 14, 30, 23, 29, 21,
    15, 32, 26, 15, 21, 28, 15, 31, 22, 15, 23, 30, 15, 17, 33, 16, 25, 20, 19, 22, 16, 19, 22, 26,
    31, 16, 17, 23, 16, 21, 28, 29, 30, 16, 21, 17, 23, 21, 29, 35, 18, 28, 17, 29, 35, 18, 24, 30] ++
  ([18, 17, 28, 24, 30, 18, 17, 35, 21, 33, 19, 25, 34, 19, 25, 22, 20, 34, 22, 20, 26, 23, 33, 25,
    20, 33, 25, 21, 29, 25, 33, 22, 34, 26, 23, 33, 22, 23, 33, 31, 25, 22, 31, 25, 32, 28, 35, 29,
    22, 31, 23, 33, 25, 32, 31, 23, 32, 31, 28, 35, 24, 30, 29, 24, 23, 28, 35, 27, 30, 29, 24, 23,
    28, 32, 33, 34, 26, 25, 31, 33, 34, 26, 25, 31, 26, 34, 32, 35, 33, 32, 34, 26, 32, 33, 35, 34] ++
  ([33, 35, 27, 28, 34, 27, 35, 33, 27, 34, 28, 35, 34, 28, 29, 30])))))

/-- A sequence of 854 tiles that solves the board of `init` for d = 7. -/
def solution7 : List Nat :=
  [7, 8, 1, 2, 9, 1, 15, 16, 1, 10, 17, 1, 23, 24, 1, 18, 25, 1, 31, 32, 1, 26, 33, 1,
    39, 40, 1, 34, 41, 1, 47, 48, 1, 47, 40, 38, 37, 36, 29, 22, 16, 15, 2, 7, 8, 14, 15, 2,
    10, 23, 2, 16, 24, 2, 18, 31, 2, 30, 32, 2, 26, 39, 2, 37, 38, 2, 34, 40, 2, 46, 48, 2,
    46, 38, 37, 26, 31, 17, 3, 9, 23, 18, 17, 3, 18, 17, 30, 31, 3, 30, 31, 32, 26, 3, 32, 26] ++
  ([36, 37, 3, 34, 38, 3, 45, 48, 3, 38, 39, 25, 11, 4, 9, 18, 4, 11, 30, 4, 17, 31, 26, 32,
    4, 26, 32, 36, 34, 4, 36, 34, 37, 45, 4, 37, 45, 44, 48, 4, 38, 46, 40, 33, 19, 12, 5, 9,
    11, 5, 12, 30, 5, 17, 26, 5, 25, 36, 5, 32, 34, 5, 37, 45, 5, 24, 22, 29, 44, 5, 29, 44,
    43, 48, 5, 43, 44, 22, 16, 10, 7, 23, 18, 11, 9, 6, 13, 12, 6, 9, 17, 6, 30, 25, 6, 26] ++
  ([32, 6, 36, 37, 6, 34, 10, 7, 14, 15, 21, 16, 7, 10, 24, 6, 45, 29, 22, 7, 6, 22, 43, 44,
    7, 6, 16, 28, 35, 42, 48, 7, 6, 35, 42, 48, 7, 6, 35, 16, 10, 14, 23, 8, 15, 23, 8, 18,
    31, 8, 14, 24, 8, 32, 34, 8, 22, 45, 8, 36, 37, 8, 29, 39, 8, 19, 33, 8, 46, 40, 8, 41,
    47, 8, 41, 33, 25, 30, 9, 17, 26, 37, 30, 9, 37, 30, 19, 25, 9, 19, 25, 46, 33, 9, 46, 33] ++
  ([40, 41, 9, 40, 39, 43, 45, 10, 16, 45, 10, 29, 43, 10, 44, 38, 10, 39, 41, 10, 39, 43, 36, 34,
    11, 31, 32, 22, 34, 11, 22, 34, 29, 36, 11, 29, 36, 44, 43, 11, 44, 43, 38, 39, 11, 41, 40, 46,
    19, 37, 12, 13, 17, 26, 30, 12, 37, 25, 12, 22, 29, 12, 33, 44, 12, 36, 43, 12, 41, 38, 12, 16,
    45, 35, 39, 12, 35, 45, 24, 14, 34, 29, 22, 37, 13, 17, 26, 30, 37, 13, 30, 37, 31, 22, 13, 33] ++
  ([36, 13, 29, 43, 13, 41, 16, 24, 14, 13, 24, 35, 45, 14, 13, 21, 28, 42, 48, 39, 14, 13, 42, 48,
    39, 14, 13, 42, 21, 34, 18, 15, 23, 18, 43, 32, 15, 43, 32, 15, 22, 29, 15, 24, 41, 15, 33, 36,
    15, 16, 44, 15, 25, 19, 15, 40, 46, 15, 27, 47, 15, 46, 38, 44, 16, 25, 40, 16, 44, 38, 16, 27,
    46, 16, 27, 46, 19, 30, 17, 20, 30, 17, 36, 40, 17, 19, 46, 17, 25, 44, 38, 27, 17, 38, 35, 21] ++
  ([48, 28, 18, 32, 34, 18, 28, 48, 18, 41, 21, 18, 42, 45, 18, 35, 27, 18, 35, 27, 38, 25, 19, 36,
    40, 33, 44, 19, 33, 44, 24, 21, 19, 38, 27, 19, 41, 42, 45, 35, 19, 41, 21, 24, 44, 40, 20, 26,
    37, 31, 40, 20, 31, 40, 29, 44, 20, 33, 38, 20, 24, 34, 42, 21, 20, 27, 41, 45, 21, 28, 48, 39,
    35, 21, 28, 20, 45, 28, 20, 48, 39, 35, 21, 20, 28, 41, 27, 24, 44, 22, 34, 44, 22, 29, 33, 22] ++
  ([24, 38, 22, 31, 36, 22, 25, 46, 22, 30, 47, 22, 46, 27, 41, 28, 48, 42, 43, 23, 32, 43, 44, 34,
    23, 44, 34, 23, 29, 24, 23, 45, 38, 23, 31, 25, 23, 41, 27, 23, 30, 46, 23, 27, 41, 31, 24, 29,
    45, 38, 31, 24, 25, 30, 24, 41, 27, 24, 41, 25, 38, 31, 28, 27, 25, 41, 46, 36, 26, 37, 40, 33,
    30, 26, 33, 30, 29, 38, 26, 29, 38, 45, 31, 26, 41, 28, 26, 34, 42, 48, 27, 26, 28, 41, 34, 42] ++
  ([43, 39, 35, 27, 48, 28, 42, 43, 39, 35, 28, 48, 27, 28, 48, 42, 41, 46, 36, 33, 29, 36, 33, 29,
    37, 47, 29, 37, 30, 38, 36, 33, 37, 30, 33, 34, 43, 31, 45, 43, 31, 41, 46, 31, 34, 37, 31, 46,
    42, 39, 44, 32, 35, 44, 32, 45, 41, 32, 39, 42, 32, 34, 46, 32, 34, 46, 37, 33, 38, 36, 43, 37,
    33, 43, 37, 41, 46, 33, 41, 46, 45, 39, 42, 34, 33, 42, 44, 48, 34, 44, 48, 35, 39, 48, 44, 34] ++
  ([35, 44, 42, 41, 46, 37, 43, 38, 47, 40, 36, 43, 38, 47, 40, 36, 43, 38, 37, 45, 48, 42, 44, 39,
    42, 48, 41, 44, 48, 41, 45, 46, 44, 45, 46, 44, 47, 40, 38, 37, 44, 47, 40, 38, 37, 44, 38, 40,
    45, 46, 47, 45, 40, 38, 45, 40, 46, 48, 39, 42, 41, 47, 48, 39, 47, 48, 40, 46, 39, 40, 48, 41,
    42, 47, 41, 48, 40, 41, 47, 42, 48, 47, 41, 40, 47, 48]))))))))

/-- A sequence of 1388 tiles that solves the board of `init` for d = 8. -/
def solution8 : List Nat :=
  [2, 9, 10, 1, 9, 10, 17, 18, 1, 11, 19, 1, 26, 27, 1, 20, 28, 1, 35, 36, 1, 29, 37, 1,
    44, 45, 1, 38, 46, 1, 53, 54, 1, 47, 55, 1, 62, 63, 1, 62, 54, 52, 51, 50, 49, 48, 40, 32,
    24, 16, 8, 2, 10, 17, 2, 8, 18, 2, 11, 26, 2, 25, 27, 2, 20, 35, 2, 34, 36, 2, 29, 44,
    2, 43, 45, 2, 38, 53, 2, 51, 52, 2, 47, 54, 2, 61, 63, 2, 61, 52, 50, 45, 43, 29, 35, 19] ++
  ([3, 9, 26, 20, 19, 3, 20, 19, 34, 35, 3, 34, 35, 36, 29, 3, 36, 29, 42, 43, 3, 38, 51, 3,
    45, 50, 3, 47, 52, 3, 60, 63, 3, 60, 47, 51, 44, 28, 12, 4, 9, 20, 34, 12, 4, 34, 12, 36,
    28, 4, 36, 28, 38, 44, 4, 38, 44, 45, 51, 4, 45, 51, 50, 47, 4, 50, 47, 59, 63, 4, 60, 52,
    53, 37, 21, 13, 5, 9, 34, 5, 13, 36, 5, 12, 28, 5, 38, 44, 5, 35, 29, 42, 51, 5, 42, 51] ++
  ([43, 47, 5, 43, 47, 49, 59, 5, 49, 59, 58, 63, 5, 60, 52, 61, 54, 46, 30, 22, 14, 6, 9, 13,
    6, 14, 36, 6, 12, 38, 6, 21, 44, 6, 35, 42, 6, 45, 43, 6, 51, 47, 6, 49, 59, 6, 33, 41,
    48, 58, 6, 48, 58, 57, 63, 6, 57, 40, 32, 24, 16, 18, 8, 11, 19, 28, 38, 12, 14, 9, 7, 15,
    9, 7, 13, 14, 7, 36, 21, 7, 12, 35, 7, 44, 45, 7, 42, 51, 7, 43, 49, 7, 47, 27, 18, 8] ++
  ([25, 18, 8, 16, 41, 8, 27, 33, 7, 59, 48, 58, 8, 7, 58, 57, 40, 8, 7, 41, 24, 32, 56, 63,
    8, 7, 32, 56, 63, 8, 7, 40, 60, 52, 61, 54, 62, 55, 39, 31, 23, 9, 36, 21, 22, 23, 9, 22,
    23, 30, 31, 9, 30, 31, 46, 39, 9, 46, 39, 62, 55, 9, 62, 53, 50, 48, 57, 32, 56, 24, 16, 25,
    11, 10, 17, 19, 10, 11, 18, 10, 28, 29, 10, 27, 33, 10, 51, 47, 10, 58, 59, 10, 43, 49, 10, 57] ++
  ([48, 10, 37, 50, 10, 61, 54, 10, 53, 55, 10, 54, 52, 60, 40, 63, 24, 16, 25, 18, 11, 28, 27, 11,
    18, 33, 11, 51, 58, 11, 41, 59, 11, 43, 57, 11, 32, 48, 11, 37, 61, 11, 60, 52, 11, 53, 54, 11,
    53, 54, 50, 45, 44, 12, 35, 42, 12, 44, 49, 12, 47, 57, 37, 61, 12, 37, 61, 60, 54, 12, 60, 54,
    52, 53, 12, 50, 55, 39, 31, 23, 21, 13, 14, 35, 13, 21, 44, 13, 42, 47, 13, 49, 37, 13, 57, 61] ++
  ([13, 60, 54, 13, 43, 32, 48, 52, 13, 48, 52, 40, 53, 13, 50, 55, 39, 31, 23, 44, 21, 14, 35, 42,
    14, 21, 49, 14, 47, 57, 14, 37, 60, 14, 61, 43, 14, 54, 48, 14, 32, 52, 14, 50, 40, 14, 59, 56,
    63, 53, 14, 40, 55, 39, 31, 23, 44, 49, 21, 35, 15, 36, 35, 47, 42, 15, 47, 42, 15, 34, 57, 15,
    37, 61, 15, 38, 43, 15, 54, 32, 15, 58, 52, 15, 50, 59, 15, 41, 56, 15, 40, 63, 16, 24, 53, 16] ++
  ([15, 25, 24, 53, 16, 15, 25, 56, 51, 27, 19, 17, 28, 19, 29, 26, 17, 29, 26, 17, 20, 43, 17, 52,
    58, 17, 38, 54, 17, 50, 32, 17, 61, 60, 17, 48, 45, 17, 49, 44, 17, 31, 23, 17, 46, 62, 17, 23,
    39, 55, 63, 25, 56, 51, 27, 18, 19, 26, 52, 58, 18, 52, 58, 38, 50, 18, 41, 32, 18, 61, 48, 18,
    59, 45, 18, 49, 31, 18, 55, 39, 18, 46, 23, 18, 39, 63, 25, 56, 51, 27, 52, 19, 26, 58, 38, 41] ++
  ([19, 52, 32, 19, 61, 59, 19, 40, 45, 19, 49, 55, 19, 25, 63, 19, 46, 39, 19, 63, 56, 45, 40, 61,
    41, 20, 29, 38, 52, 41, 20, 52, 41, 32, 61, 20, 59, 49, 20, 40, 25, 20, 55, 46, 20, 56, 63, 20,
    39, 31, 60, 21, 42, 37, 54, 48, 21, 60, 46, 21, 49, 55, 21, 39, 56, 21, 40, 25, 45, 63, 21, 56,
    31, 23, 44, 42, 22, 35, 37, 54, 60, 22, 54, 60, 48, 49, 22, 48, 49, 50, 55, 22, 39, 40, 22, 59] ++
  ([25, 22, 56, 45, 22, 61, 27, 51, 63, 22, 45, 31, 23, 46, 40, 56, 31, 23, 56, 31, 61, 45, 23, 61,
    45, 27, 51, 24, 53, 63, 24, 23, 27, 51, 33, 53, 63, 24, 23, 27, 61, 45, 59, 25, 52, 55, 50, 39,
    25, 50, 39, 49, 48, 25, 31, 40, 25, 54, 42, 25, 46, 44, 25, 30, 62, 25, 44, 56, 45, 61, 27, 33,
    32, 26, 58, 41, 55, 52, 26, 55, 52, 39, 50, 26, 39, 50, 49, 31, 26, 59, 40, 26, 54, 46, 26, 45] ++
  ([56, 26, 30, 44, 26, 56, 61, 27, 51, 40, 45, 61, 27, 45, 61, 30, 56, 27, 45, 51, 33, 63, 53, 58,
    41, 28, 38, 52, 28, 41, 55, 28, 50, 39, 28, 32, 40, 28, 59, 61, 28, 33, 51, 28, 30, 45, 28, 51,
    33, 59, 39, 29, 52, 50, 32, 39, 29, 32, 39, 40, 59, 29, 61, 30, 29, 33, 51, 29, 33, 61, 30, 33,
    61, 30, 40, 59, 63, 51, 30, 40, 32, 49, 31, 54, 33, 31, 49, 39, 59, 32, 31, 61, 40, 63, 32, 55] ++
  ([58, 53, 51, 32, 55, 31, 63, 55, 31, 58, 53, 51, 32, 31, 55, 40, 45, 56, 46, 33, 54, 48, 60, 42,
    33, 46, 44, 33, 35, 62, 33, 44, 46, 60, 34, 57, 48, 54, 60, 34, 42, 35, 34, 46, 44, 34, 46, 42,
    35, 46, 42, 35, 54, 60, 56, 44, 35, 42, 46, 47, 36, 37, 47, 54, 57, 36, 54, 57, 36, 48, 60, 36,
    42, 56, 36, 49, 61, 45, 44, 36, 56, 46, 57, 54, 37, 47, 54, 42, 48, 37, 42, 48, 49, 60, 37, 49] ++
  ([60, 37, 43, 61, 37, 56, 45, 37, 39, 63, 40, 44, 37, 40, 58, 53, 41, 38, 50, 59, 38, 41, 53, 38,
    63, 58, 38, 55, 44, 38, 40, 39, 58, 63, 55, 40, 39, 58, 63, 55, 41, 53, 51, 44, 40, 39, 55, 41,
    53, 51, 44, 40, 39, 55, 58, 63, 41, 52, 61, 43, 56, 41, 43, 56, 49, 60, 41, 49, 60, 42, 48, 41,
    46, 57, 41, 54, 62, 41, 57, 46, 42, 48, 54, 42, 46, 57, 42, 46, 49, 43, 63, 45, 43, 49, 57, 43] ++
  ([45, 58, 55, 44, 51, 53, 52, 55, 44, 52, 55, 63, 58, 44, 63, 58, 49, 45, 44, 49, 45, 60, 56, 61,
    58, 63, 49, 45, 60, 57, 46, 54, 48, 56, 57, 46, 56, 57, 61, 60, 46, 61, 60, 58, 63, 46, 58, 63,
    59, 55, 52, 49, 46, 58, 61, 56, 57, 48, 47, 62, 54, 57, 56, 60, 48, 47, 57, 56, 60, 61, 63, 48,
    47, 60, 61, 63, 58, 59, 48, 47, 63, 58, 59, 52, 55, 48, 47, 59, 52, 55, 48, 50, 53, 51, 49, 48] ++
  ([50, 47, 55, 50, 47, 53, 51, 49, 48, 47, 49, 51, 53, 55, 50, 49, 55, 50, 59, 52, 49, 59, 52, 63,
    58, 49, 63, 58, 60, 61, 49, 60, 61, 49, 56, 57, 62, 54, 57, 62, 49, 56, 62, 49, 54, 57, 49, 62,
    60, 63, 58, 52, 50, 55, 59, 50, 52, 61, 63, 58, 50, 52, 61, 63, 56, 60, 58, 50, 63, 56, 60, 54,
    62, 58, 50, 60, 54, 62, 58, 50, 60, 63, 52, 59, 51, 53, 55, 61, 56, 52, 59, 51, 61, 56, 52, 54] ++
  ([63, 59, 51, 52, 54, 63, 62, 60, 59, 51, 63, 62, 60, 59, 51, 60, 62, 63, 52, 54, 63, 62, 60, 52,
    54, 61, 53, 55, 56, 63, 62, 54, 61, 53, 63, 62, 54, 61, 53, 54, 62, 63, 55, 56]))))))))))))))

/-- A sequence of 2128 tiles that solves the board of `init` for d = 9. -/
def solution9 : List Nat :=
  [9, 10, 1, 2, 11, 1, 19, 20, 1, 12, 21, 1, 29, 30, 1, 22, 31, 1, 39, 40, 1, 32, 41, 1,
    49, 50, 1, 42, 51, 1, 59, 60, 1, 52, 61, 1, 69, 70, 1, 62, 71, 1, 79, 80, 1, 79, 70, 68,
    67, 66, 65, 64, 55, 46, 37, 28, 20, 19, 2, 9, 10, 18, 19, 2, 12, 29, 2, 20, 30, 2, 22, 39,
    2, 38, 40, 2, 32, 49, 2, 48, 50, 2, 42, 59, 2, 58, 60, 2, 52, 69, 2, 67, 68, 2, 62, 70] ++
  ([2, 78, 80, 2, 78, 68, 66, 65, 57, 50, 48, 32, 39, 21, 3, 11, 29, 22, 21, 3, 22, 21, 38, 39,
    3, 38, 39, 40, 32, 3, 40, 32, 47, 48, 3, 42, 58, 3, 50, 60, 3, 52, 67, 3, 65, 66, 3, 62,
    68, 3, 77, 80, 3, 77, 66, 65, 52, 58, 49, 31, 13, 4, 11, 22, 38, 13, 4, 38, 13, 40, 31, 4,
    40, 31, 42, 49, 4, 42, 49, 50, 58, 4, 50, 58, 60, 52, 4, 60, 52, 57, 65, 4, 62, 66, 4, 76] ++
  ([80, 4, 66, 67, 59, 41, 23, 14, 5, 11, 38, 5, 14, 40, 5, 13, 31, 49, 42, 5, 49, 42, 58, 50,
    5, 58, 50, 52, 60, 5, 52, 60, 57, 62, 5, 57, 62, 65, 76, 5, 65, 76, 75, 80, 5, 66, 77, 68,
    69, 51, 33, 24, 15, 6, 11, 14, 6, 15, 40, 6, 13, 49, 6, 23, 58, 6, 42, 50, 6, 52, 60, 6,
    32, 47, 48, 62, 6, 48, 62, 56, 76, 6, 56, 76, 64, 75, 6, 64, 75, 74, 80, 6, 66, 77, 68, 78] ++
  ([70, 61, 43, 34, 25, 16, 7, 11, 15, 7, 16, 40, 7, 13, 23, 7, 24, 58, 7, 42, 52, 7, 41, 60,
    7, 32, 48, 7, 57, 56, 7, 62, 76, 7, 64, 75, 7, 37, 46, 55, 74, 7, 55, 74, 73, 80, 7, 73,
    74, 46, 28, 30, 20, 12, 9, 29, 21, 9, 12, 39, 9, 31, 49, 23, 13, 16, 11, 8, 17, 11, 8, 15,
    16, 8, 40, 24, 8, 13, 42, 8, 58, 41, 8, 52, 32, 8, 60, 57, 8, 48, 47, 9, 50, 47, 62, 8] ++
  ([56, 64, 8, 76, 9, 20, 30, 9, 37, 28, 9, 37, 28, 8, 75, 55, 46, 9, 8, 46, 73, 74, 9, 8,
    45, 54, 63, 72, 80, 9, 8, 63, 72, 80, 9, 8, 63, 45, 37, 30, 39, 12, 29, 10, 18, 29, 10, 21,
    31, 10, 12, 50, 10, 49, 47, 10, 20, 62, 10, 32, 48, 10, 76, 56, 10, 60, 57, 10, 64, 59, 10, 33,
    51, 10, 67, 69, 10, 43, 61, 10, 78, 70, 10, 71, 79, 10, 71, 79, 53, 44, 35, 26, 11, 40, 24, 11] ++
  ([26, 25, 11, 58, 41, 51, 34, 11, 51, 34, 43, 61, 11, 43, 61, 78, 79, 11, 78, 79, 70, 71, 11, 70,
    69, 65, 55, 73, 45, 37, 30, 39, 50, 12, 49, 20, 12, 50, 62, 12, 32, 76, 12, 28, 56, 12, 60, 64,
    12, 75, 59, 12, 33, 67, 12, 55, 65, 12, 79, 69, 12, 68, 71, 12, 69, 61, 34, 41, 13, 42, 52, 13,
    41, 57, 13, 48, 64, 33, 67, 13, 33, 67, 55, 79, 13, 55, 79, 65, 68, 13, 65, 68, 77, 71, 13, 65] ++
  ([55, 33, 48, 52, 14, 38, 23, 14, 52, 64, 14, 47, 76, 60, 67, 14, 60, 67, 75, 79, 14, 75, 79, 59,
    68, 14, 59, 68, 73, 77, 14, 73, 77, 66, 71, 14, 65, 69, 70, 78, 43, 51, 58, 24, 15, 16, 42, 15,
    24, 41, 15, 52, 64, 15, 57, 48, 15, 60, 75, 15, 33, 59, 15, 79, 68, 15, 73, 77, 15, 56, 46, 45,
    66, 15, 45, 66, 74, 71, 15, 65, 69, 70, 78, 43, 51, 58, 41, 24, 16, 42, 52, 16, 24, 57, 16, 64] ++
  ([60, 16, 48, 33, 16, 75, 79, 16, 59, 73, 16, 68, 56, 16, 77, 45, 16, 46, 66, 16, 65, 74, 16, 30,
    37, 63, 71, 16, 63, 72, 54, 36, 27, 19, 29, 18, 21, 49, 18, 29, 50, 18, 20, 76, 47, 60, 64, 24,
    42, 17, 40, 42, 24, 52, 17, 24, 52, 17, 38, 64, 17, 48, 75, 17, 60, 79, 17, 59, 68, 17, 67, 56,
    17, 77, 46, 17, 28, 62, 18, 50, 19, 27, 39, 18, 62, 66, 17, 65, 30, 37, 18, 17, 37, 63, 72, 18] ++
  ([17, 39, 36, 54, 80, 71, 18, 17, 54, 80, 71, 18, 17, 54, 39, 62, 50, 19, 29, 20, 76, 32, 19, 76,
    32, 47, 56, 19, 47, 56, 79, 67, 19, 28, 77, 19, 59, 68, 19, 46, 73, 19, 33, 34, 19, 55, 61, 19,
    58, 51, 19, 78, 43, 19, 44, 53, 19, 43, 70, 69, 74, 72, 54, 39, 62, 50, 76, 32, 20, 21, 49, 31,
    56, 20, 32, 47, 20, 79, 28, 20, 66, 77, 20, 59, 46, 20, 65, 73, 20, 33, 55, 20, 45, 61, 20, 58] ++
  ([78, 20, 69, 70, 20, 44, 43, 20, 70, 74, 72, 54, 39, 62, 50, 76, 47, 32, 21, 29, 32, 21, 79, 66,
    21, 47, 77, 21, 59, 65, 21, 37, 73, 21, 33, 45, 21, 30, 61, 21, 58, 69, 21, 72, 74, 21, 44, 70,
    21, 74, 54, 61, 30, 33, 65, 28, 22, 56, 66, 59, 28, 22, 59, 28, 37, 65, 22, 37, 65, 73, 33, 22,
    45, 58, 22, 30, 72, 22, 69, 44, 22, 54, 74, 22, 54, 69, 58, 46, 67, 23, 56, 59, 37, 67, 23, 37] ++
  ([67, 45, 46, 23, 45, 46, 30, 58, 23, 30, 58, 72, 69, 23, 72, 69, 61, 74, 23, 54, 70, 43, 51, 41,
    57, 52, 24, 38, 48, 24, 52, 75, 24, 60, 68, 24, 34, 55, 24, 45, 30, 24, 44, 72, 24, 58, 69, 24,
    54, 61, 24, 33, 63, 39, 74, 24, 61, 70, 43, 51, 41, 57, 25, 26, 75, 34, 55, 25, 34, 55, 45, 44,
    25, 45, 44, 30, 58, 25, 30, 58, 46, 69, 25, 54, 33, 25, 73, 63, 25, 61, 39, 25, 76, 50, 62, 74] ++
  ([25, 62, 80, 36, 27, 77, 63, 73, 54, 30, 45, 34, 26, 75, 55, 44, 34, 26, 44, 34, 58, 45, 26, 58,
    45, 46, 30, 26, 46, 30, 69, 54, 26, 33, 61, 26, 73, 76, 26, 39, 62, 80, 36, 27, 50, 26, 80, 36,
    27, 71, 74, 27, 26, 50, 71, 74, 27, 26, 36, 62, 39, 73, 54, 67, 28, 66, 59, 56, 37, 28, 67, 69,
    28, 68, 30, 28, 33, 46, 28, 45, 58, 28, 72, 78, 28, 44, 57, 28, 51, 41, 28, 35, 53, 28, 41, 43] ++
  ([70, 39, 62, 36, 50, 63, 47, 79, 29, 49, 31, 59, 66, 29, 59, 66, 56, 67, 29, 65, 69, 29, 68, 33,
    29, 54, 46, 29, 45, 72, 29, 61, 78, 29, 44, 51, 29, 70, 43, 29, 35, 41, 29, 43, 70, 44, 72, 30,
    33, 45, 61, 72, 30, 61, 72, 78, 44, 30, 51, 35, 30, 70, 43, 30, 70, 44, 73, 80, 63, 71, 77, 32,
    49, 31, 66, 59, 31, 49, 79, 31, 65, 69, 31, 47, 76, 31, 54, 46, 31, 63, 80, 31, 78, 73, 31, 62] ++
  ([39, 31, 44, 43, 31, 39, 36, 50, 71, 76, 32, 79, 47, 54, 63, 32, 76, 80, 32, 78, 62, 32, 50, 36,
    32, 44, 39, 32, 44, 39, 43, 51, 61, 33, 45, 72, 33, 61, 73, 33, 46, 62, 33, 43, 39, 33, 78, 50,
    36, 44, 33, 39, 51, 70, 35, 58, 34, 52, 60, 45, 61, 34, 45, 61, 72, 46, 34, 72, 46, 68, 62, 34,
    43, 78, 34, 63, 50, 34, 39, 36, 34, 76, 80, 71, 44, 34, 36, 51, 70, 35, 58, 73, 78, 70, 35, 78] ++
  ([70, 39, 51, 35, 39, 51, 76, 80, 71, 36, 35, 76, 80, 71, 79, 77, 74, 44, 36, 35, 71, 79, 77, 74,
    44, 36, 35, 71, 76, 39, 51, 43, 68, 37, 64, 46, 37, 68, 72, 37, 61, 45, 37, 70, 73, 37, 52, 57,
    37, 58, 41, 37, 75, 53, 37, 75, 57, 60, 38, 48, 45, 52, 60, 38, 52, 60, 58, 57, 38, 58, 57, 41,
    75, 38, 41, 73, 43, 51, 39, 80, 51, 43, 78, 39, 43, 78, 73, 75, 39, 73, 75, 41, 58, 52, 48, 40] ++
  ([42, 48, 40, 45, 60, 40, 52, 57, 40, 61, 70, 40, 41, 75, 40, 72, 78, 43, 73, 40, 72, 41, 61, 70,
    68, 78, 41, 72, 43, 41, 63, 51, 80, 73, 41, 43, 75, 58, 57, 52, 45, 42, 48, 45, 70, 60, 42, 70,
    60, 68, 46, 42, 68, 46, 42, 64, 78, 42, 72, 63, 42, 62, 51, 42, 43, 80, 42, 50, 79, 76, 73, 42,
    50, 43, 62, 51, 69, 79, 43, 50, 76, 43, 54, 77, 71, 73, 43, 76, 80, 75, 58, 57, 52, 60, 45, 48] ++
  ([70, 68, 46, 45, 68, 46, 64, 72, 45, 64, 72, 78, 51, 45, 78, 51, 67, 69, 45, 67, 69, 56, 79, 45,
    50, 54, 45, 65, 77, 45, 76, 71, 45, 47, 74, 45, 73, 44, 45, 73, 71, 80, 75, 58, 57, 52, 60, 68,
    46, 72, 64, 61, 68, 46, 48, 55, 46, 60, 53, 46, 60, 68, 63, 62, 54, 76, 47, 77, 65, 50, 76, 47,
    50, 76, 67, 54, 47, 67, 54, 78, 62, 47, 78, 62, 61, 63, 47, 57, 52, 47, 68, 53, 47, 68, 63, 48] ++
  ([53, 63, 48, 61, 57, 52, 68, 48, 52, 78, 67, 50, 77, 65, 49, 66, 59, 79, 76, 49, 79, 76, 56, 54,
    49, 77, 50, 49, 62, 67, 49, 75, 58, 49, 78, 68, 49, 58, 75, 50, 80, 75, 50, 78, 58, 50, 78, 58,
    67, 69, 51, 57, 69, 51, 54, 62, 51, 67, 58, 51, 77, 80, 75, 78, 51, 58, 68, 52, 61, 69, 67, 68,
    52, 67, 68, 77, 58, 52, 77, 58, 80, 75, 52, 80, 75, 79, 65, 71, 78, 52, 80, 77, 67, 61, 69, 53] ++
  ([72, 64, 57, 68, 53, 69, 61, 67, 58, 54, 62, 75, 54, 53, 68, 62, 75, 56, 79, 54, 53, 75, 56, 79,
    76, 65, 54, 53, 77, 80, 71, 54, 66, 74, 73, 78, 54, 66, 53, 71, 66, 53, 74, 73, 78, 54, 53, 66,
    80, 58, 67, 61, 63, 60, 55, 72, 69, 68, 62, 56, 75, 62, 56, 57, 68, 56, 61, 63, 56, 69, 60, 56,
    63, 61, 57, 68, 69, 57, 61, 63, 57, 61, 62, 67, 58, 77, 67, 62, 63, 58, 77, 80, 66, 74, 65, 59] ++
  ([73, 65, 71, 76, 59, 71, 76, 59, 79, 67, 59, 66, 80, 59, 62, 77, 59, 62, 77, 63, 61, 60, 64, 69,
    68, 61, 60, 68, 61, 75, 63, 60, 75, 63, 67, 77, 60, 67, 77, 79, 66, 80, 62, 60, 67, 75, 63, 61,
    68, 63, 75, 77, 61, 75, 77, 67, 79, 61, 67, 79, 80, 66, 61, 80, 66, 61, 71, 76, 74, 62, 61, 66,
    79, 77, 63, 68, 75, 67, 77, 63, 67, 77, 80, 79, 63, 80, 79, 71, 66, 63, 71, 66, 76, 73, 65, 78] ++
  ([62, 74, 63, 76, 73, 65, 78, 63, 74, 62, 63, 74, 76, 71, 66, 73, 71, 66, 80, 79, 73, 80, 79, 67,
    77, 73, 67, 77, 68, 75, 73, 68, 75, 73, 69, 64, 72, 70, 64, 72, 73, 69, 72, 73, 70, 64, 73, 72,
    68, 67, 80, 71, 65, 76, 74, 78, 76, 74, 66, 79, 71, 65, 74, 66, 79, 71, 77, 80, 65, 74, 71, 77,
    80, 75, 67, 65, 74, 80, 75, 67, 69, 68, 65, 74, 67, 69, 68, 70, 72, 65, 74, 68, 70, 72, 65, 74] ++
  ([68, 67, 80, 71, 66, 79, 77, 66, 71, 80, 69, 75, 66, 71, 80, 69, 67, 70, 75, 66, 69, 67, 70, 68,
    72, 75, 66, 70, 68, 72, 75, 66, 70, 68, 67, 80, 79, 76, 78, 77, 71, 79, 76, 71, 79, 69, 80, 76,
    69, 80, 68, 70, 72, 67, 76, 68, 70, 72, 67, 76, 68, 69, 71, 79, 77, 78, 79, 71, 80, 77, 71, 80,
    69, 70, 77, 69, 70, 77, 72, 68, 77, 70, 69, 71, 78, 79, 80, 78, 71, 72, 70, 69, 78, 71, 72, 70] ++
  ([69, 78, 70, 72, 79, 80, 71, 79, 72, 70, 79, 71, 80, 72, 71, 80]))))))))))))))))))))))

/-! ### The parity of a board -/

/-- Number of inversions of a sequence: the pairs of places whose earlier entry is
the larger one. -/
def inversions : List Int → Nat
  | [] => 0
  | x :: xs => xs.countP (fun y => decide (y < x)) + inversions xs

/-- The number of inversions of the row-major sequence of all cell values, 0 included,
plus the row index and the column index of the blank, modulo 2.  The blank is located
with the search loops of `move`. -/
def parity (d : Int) (board : Board) : Int :=
  ((inversions (cells d board) : Int) + (findTile d board 0).1 + (findTile d board 0).2) % 2

/-! ### `draw` (lines 190-207) -/

/-- The new-line character. -/
def newline : Char := Char.ofNat 10

/-- The characters that `printf` writes for `%i`: the decimal digits of the number,
after a minus sign when it is negative. -/
def decimal (v : Int) : List Char :=
  if v < 0 then '-' :: Nat.toDigits 10 v.natAbs else Nat.toDigits 10 v.toNat

/-- The characters that `printf("%3i", v)` writes: the decimal number, padded on the left
with spaces to a width of 3. -/
def printf3i (v : Int) : List Char :=
  List.replicate (3 - (decimal v).length) ' ' ++ decimal v

/-- Body of the inner loop of `draw`: what is printed for a cell holding `v`. -/
def drawCell (v : Int) : List Char :=
  if v = 0 then [' ', ' ', '_'] else printf3i v

/-- Inner loop of `draw`: what is printed for row `i`, before the new-line. -/
def drawLine (d : Int) (board : Board) (i : Int) : List Char :=
  (List.range d.toNat).flatMap fun (j : Nat) => drawCell (cell board i (j : Int))

/-- The function `draw`: the text it prints.  It has no assignment to `board`. -/
def draw (d : Int) (board : Board) : List Char :=
  (List.range d.toNat).flatMap fun (i : Nat) => drawLine d board (i : Int) ++ [newline]

/-- The character of a decimal digit. -/
def digitChar (n : Nat) : Char := Char.ofNat (48 + n)

/-- A field in the specification's words: the placeholder for the blank, and for a tile
below 100 its decimal value right-justified in three characters with leading spaces. -/
def specField (v : Int) : List Char :=
  if v = 0 then [' ', ' ', '_']
  else if v < 10 then [' ', ' ', digitChar v.toNat]
  else [' ', digitChar (v.toNat / 10), digitChar (v.toNat % 10)]

/-! ### `main` (lines 47-141)

The events outside the program are parameters: the value that `atoi` gives for
`argv[1]`, whether `fopen` gives a file, and the numbers that `scanf` stores in `tile`,
one per iteration.  What `main` prints and logs is left out. -/

/-- The loop of `main` from a board, with the numbers read in its iterations: the board
at the `break`, or `none` when the numbers end before a `break` (the program then reads
a `tile` that `scanf` has not set, about which the model says nothing). -/
def gameLoop (d : Int) : List Int → Board → Option Board
  | [], board => if won d board ≠ 0 then some board else none
  | tile :: rest, board =>
    if won d board ≠ 0 then some board
    else if tile = 0 then some board
    else gameLoop d rest (move d board tile).1

/-- What a run of `main` comes to: the value returned, when it returns, and the value
of `d` with which `init` was called, when it was called. -/
structure Outcome where
  /-- The value that `main` returns. -/
  exit : Option Int
  /-- The dimension with which `init` ran. -/
  initWith : Option Int

/-- The function `main`. -/
def main (argc arg1 : Int) (logOpens : Bool) (input : List Int) (board : Board) : Outcome :=
  if argc ≠ 2 then
    { exit := some 1, initWith := none }
  else
    let d := arg1
    if d < DIM_MIN ∨ d > DIM_MAX then
      { exit := some 2, initWith := none }
    else if logOpens = false then
      { exit := some 3, initWith := none }
    else
      match gameLoop d input (init d board) with
      | some _ => { exit := some 0, initWith := some d }
      | none => { exit := none, initWith := some d }
/-! ## Reading and writing cells -/

theorem cell_store (b : Board) (i j i1 j1 v : Int) :
    cell (store b i1 j1 v) i j = if idx i j = idx i1 j1 then v else cell b i j := rfl

theorem idx_inj {i j i1 j1 : Int} (hj : 0 ≤ j) (hj9 : j < 9) (hj1 : 0 ≤ j1) (hj19 : j1 < 9) :
    idx i j = idx i1 j1 ↔ i = i1 ∧ j = j1 := by
  unfold idx DIM_MAX; omega

/-! ## The loops of `init` -/

theorem initRow_fold (i : Int) (st : Board × Int) (m : Nat) :
    ((List.range m).foldl (fun s (j : Nat) => initStep i (j : Int) s) st).2 = st.2 - m ∧
    (∀ j : Nat, j < m →
      ((List.range m).foldl (fun s (j : Nat) => initStep i (j : Int) s) st).1 (idx i j) = st.2 - j) ∧
    (∀ a, (∀ j : Nat, j < m → a ≠ idx i j) →
      ((List.range m).foldl (fun s (j : Nat) => initStep i (j : Int) s) st).1 a = st.1 a) := by
  induction m with
  | zero => simp
  | succ m ih =>
    simp only [List.range_succ, List.foldl_append, List.foldl_cons, List.foldl_nil]
    obtain ⟨h1, h2, h3⟩ := ih
    generalize (List.range m).foldl (fun s (j : Nat) => initStep i (j : Int) s) st = mid
      at h1 h2 h3
    refine ⟨?_, ?_, ?_⟩
    · simp only [initStep, h1]; push_cast; ring
    · intro j hj
      simp only [initStep, store]
      by_cases hjm : j = m
      · subst hjm; simp [h1]
      · have hne : idx i j ≠ idx i m := by unfold idx; omega
        rw [if_neg hne]; exact h2 j (by omega)
    · intro a ha
      simp only [initStep, store]
      rw [if_neg (ha m (by omega))]
      exact h3 a (fun j hj => ha j (by omega))

theorem initFill_fold (n : Nat) (hn : n ≤ 9) (st : Board × Int) (m : Nat) :
    ((List.range m).foldl (fun s (i : Nat) => initRow (n : Int) (i : Int) s) st).2 = st.2 - m * n ∧
    (∀ i j : Nat, i < m → j < n →
      ((List.range m).foldl (fun s (i : Nat) => initRow (n : Int) (i : Int) s) st).1 (idx i j)
        = st.2 - (i * n + j)) ∧
    (∀ a, (∀ i j : Nat, i < m → j < n → a ≠ idx i j) →
      ((List.range m).foldl (fun s (i : Nat) => initRow (n : Int) (i : Int) s) st).1 a = st.1 a) := by
  induction m with
  | zero => simp
  | succ m ih =>
    simp only [List.range_succ, List.foldl_append, List.foldl_cons, List.foldl_nil]
    obtain ⟨h1, h2, h3⟩ := ih
    generalize (List.range m).foldl (fun s (i : Nat) => initRow (n : Int) (i : Int) s) st = mid at h1 h2 h3
    obtain ⟨r1, r2, r3⟩ := initRow_fold (m : Int) mid n
    have hrow : initRow (n : Int) (m : Int) mid
        = (List.range n).foldl (fun s (j : Nat) => initStep (m : Int) (j : Int) s) mid := by
      simp [initRow]
    rw [hrow]
    refine ⟨?_, ?_, ?_⟩
    · rw [r1, h1]; push_cast; ring
    · intro i j hi hj
      by_cases him : i = m
      · subst him; rw [r2 j hj, h1]; ring
      · rw [r3 _ (fun j1 hj1 => by unfold idx DIM_MAX; omega)]
        exact h2 i j (by omega) hj
    · intro a ha
      rw [r3 a (fun j hj => ha m j (by omega) hj)]
      exact h3 a (fun i j hi hj => ha i j (by omega) hj)

/-- The cells of the grid after the two loops of `init`, and the memory outside it. -/
theorem initFill_cell (n : Nat) (hn : n ≤ 9) (b : Board) :
    (∀ i j : Nat, i < n → j < n →
      cell (initFill (n : Int) b).1 i j = (n : Int) * n - 1 - (i * n + j)) ∧
    (∀ a, (∀ i j : Nat, i < n → j < n → a ≠ idx i j) → (initFill (n : Int) b).1 a = b a) := by
  obtain ⟨_, h2, h3⟩ := initFill_fold n hn (b, (n : Int) * n - 1) n
  have hf : initFill (n : Int) b
      = (List.range n).foldl (fun s (i : Nat) => initRow (n : Int) (i : Int) s) (b, (n : Int) * n - 1) := by
    simp [initFill]
  rw [hf]
  exact ⟨fun i j hi hj => h2 i j hi hj, h3⟩

/-- Every cell of the grid after `init`. -/
theorem init_cell (d : Int) (h3 : 3 ≤ d) (h9 : d ≤ 9) (b : Board) (i j : Int)
    (hg : InGrid d i j) : cell (init d b) i j = referenceLayout d i j := by
  obtain ⟨hi0, hi, hj0, hj⟩ := hg
  lift d to ℕ using (by omega)
  lift i to ℕ using hi0
  lift j to ℕ using hj0
  have hfill := (initFill_cell d (by omega) b).1
  have hij := hfill i j (by omega) (by omega)
  unfold init referenceLayout reversedLayout
  by_cases hpar : ((d : Int) * d) % 2 = 0
  · have e2 : idx (i : Int) j = idx ((d : Int) - 1) ((d : Int) - 2)
        ↔ (i : Int) = d - 1 ∧ (j : Int) = d - 2 :=
      idx_inj (by omega) (by omega) (by omega) (by omega)
    have e3 : idx (i : Int) j = idx ((d : Int) - 1) ((d : Int) - 3)
        ↔ (i : Int) = d - 1 ∧ (j : Int) = d - 3 :=
      idx_inj (by omega) (by omega) (by omega) (by omega)
    simp only [hpar, if_true, cell_store, e2, e3]
    by_cases hB : (i : Int) = d - 1 ∧ (j : Int) = d - 2
    · have hA : ¬ ((i : Int) = d - 1 ∧ (j : Int) = d - 3) := by omega
      rw [if_pos hB, if_neg hA, if_pos hB]; ring
    · rw [if_neg hB]
      by_cases hA : (i : Int) = d - 1 ∧ (j : Int) = d - 3
      · rw [if_pos hA, if_pos hA]; ring
      · rw [if_neg hA, if_neg hA, if_neg hB, hij]
  · simp only [hpar, if_false]
    exact hij

/-- Memory outside the grid is left alone by `init`. -/
theorem init_frame (d : Int) (h3 : 3 ≤ d) (h9 : d ≤ 9) (b : Board) (a : Int)
    (ha : ∀ i j, InGrid d i j → a ≠ idx i j) : init d b a = b a := by
  lift d to ℕ using (by omega)
  have hfill := (initFill_cell d (by omega) b).2 a
    (fun i j hi hj => ha i j ⟨by omega, by omega, by omega, by omega⟩)
  unfold init
  by_cases hpar : ((d : Int) * d) % 2 = 0
  · simp only [hpar, if_true, store]
    rw [if_neg (ha _ _ ⟨by omega, by omega, by omega, by omega⟩),
      if_neg (ha _ _ ⟨by omega, by omega, by omega, by omega⟩)]
    exact hfill
  · simp only [hpar, if_false]
    exact hfill

/-! ## The loops of `won` -/

theorem wonRow_range' (b : Board) (i : Int) (m : Nat) : ∀ (s : Nat) (cnt : Int),
    ((∀ j : Nat, s ≤ j → j < s + m → cell b i j = 0 ∨ cell b i j = cnt + (j - s)) →
      wonRow b i (List.range' s m) cnt = some (cnt + m)) ∧
    ((¬ ∀ j : Nat, s ≤ j → j < s + m → cell b i j = 0 ∨ cell b i j = cnt + (j - s)) →
      wonRow b i (List.range' s m) cnt = none) := by
  induction m with
  | zero =>
    intro s cnt
    refine ⟨fun _ => by simp [List.range', wonRow], fun h => ?_⟩
    exact absurd (fun j h1 h2 => by omega) h
  | succ m ih =>
    intro s cnt
    simp only [List.range', wonRow]
    by_cases h0 : cell b i (s : Int) ≠ 0 ∧ cell b i (s : Int) ≠ cnt
    · rw [if_pos h0]
      refine ⟨fun h => ?_, fun _ => rfl⟩
      have := h s (le_refl _) (by omega)
      simp only [sub_self, add_zero] at this
      tauto
    · rw [if_neg h0]
      have hequiv : (∀ j : Nat, s ≤ j → j < s + (m + 1) →
            cell b i j = 0 ∨ cell b i j = cnt + (j - s)) ↔
          (∀ j : Nat, s + 1 ≤ j → j < s + 1 + m →
            cell b i j = 0 ∨ cell b i j = cnt + 1 + (j - (s + 1 : Nat))) := by
        constructor
        · intro h j h1 h2
          have := h j (by omega) (by omega)
          push_cast
          rcases this with h | h
          · exact Or.inl h
          · right; rw [h]; ring
        · intro h j h1 h2
          by_cases hjs : j = s
          · subst hjs
            simp only [sub_self, add_zero]
            tauto
          · have := h j (by omega) (by omega)
            push_cast at this
            rcases this with h | h
            · exact Or.inl h
            · right; rw [h]; ring
      rw [hequiv]
      obtain ⟨ih1, ih2⟩ := ih (s + 1) (cnt + 1)
      refine ⟨fun h => ?_, ih2⟩
      rw [ih1 h]; congr 1; push_cast; ring

theorem wonRows_range' (n : Nat) (b : Board) (m : Nat) : ∀ (s : Nat) (cnt : Int),
    ((∀ i j : Nat, s ≤ i → i < s + m → j < n →
        cell b i j = 0 ∨ cell b i j = cnt + ((i - s) * n + j)) →
      wonRows (n : Int) b (List.range' s m) cnt = some (cnt + m * n)) ∧
    ((¬ ∀ i j : Nat, s ≤ i → i < s + m → j < n →
        cell b i j = 0 ∨ cell b i j = cnt + ((i - s) * n + j)) →
      wonRows (n : Int) b (List.range' s m) cnt = none) := by
  induction m with
  | zero =>
    intro s cnt
    refine ⟨fun _ => by simp [List.range', wonRows], fun h => ?_⟩
    exact absurd (fun i j h1 h2 => by omega) h
  | succ m ih =>
    intro s cnt
    simp only [List.range', wonRows, Int.toNat_ofNat, List.range_eq_range']
    obtain ⟨r1, r2⟩ := wonRow_range' b (s : Int) n 0 cnt
    by_cases hrow : ∀ j : Nat, 0 ≤ j → j < 0 + n →
        cell b (s : Int) j = 0 ∨ cell b (s : Int) j = cnt + (j - (0 : Nat))
    · rw [r1 hrow]
      have hequiv : (∀ i j : Nat, s ≤ i → i < s + (m + 1) → j < n →
            cell b i j = 0 ∨ cell b i j = cnt + ((i - s) * n + j)) ↔
          (∀ i j : Nat, s + 1 ≤ i → i < s + 1 + m → j < n →
            cell b i j = 0 ∨ cell b i j = cnt + n + ((i - (s + 1 : Nat)) * n + j)) := by
        constructor
        · intro h i j h1 h2 h3
          rcases h i j (by omega) (by omega) h3 with h | h
          · exact Or.inl h
          · right; rw [h]; push_cast; ring
        · intro h i j h1 h2 h3
          by_cases his : i = s
          · subst his
            rcases hrow j (by omega) (by omega) with h | h
            · exact Or.inl h
            · right; rw [h]; push_cast; ring
          · rcases h i j (by omega) (by omega) h3 with h | h
            · exact Or.inl h
            · right; rw [h]; push_cast; ring
      rw [hequiv]
      obtain ⟨ih1, ih2⟩ := ih (s + 1) (cnt + n)
      refine ⟨fun h => ?_, ih2⟩
      show wonRows (n : Int) b (List.range' (s + 1) m) (cnt + n) = _
      rw [ih1 h]; congr 1; push_cast; ring
    · rw [r2 hrow]
      refine ⟨fun h => ?_, fun _ => rfl⟩
      exfalso; apply hrow
      intro j _ hj
      rcases h s j (le_refl _) (by omega) (by omega) with h | h
      · exact Or.inl h
      · right; rw [h]; push_cast; ring

/-- What `won` computes, for every content of the grid. -/
theorem won_eq_one_iff (d : Int) (h0 : 0 ≤ d) (b : Board) :
    won d b = 1 ↔ ∀ row col, InGrid d row col →
      cell b row col = 0 ∨ cell b row col = row * d + col + 1 := by
  lift d to ℕ using h0
  obtain ⟨r1, r2⟩ := wonRows_range' d b d 0 1
  have hequiv : (∀ i j : Nat, 0 ≤ i → i < 0 + d → j < d →
        cell b i j = 0 ∨ cell b i j = 1 + (((i : Int) - (0 : Nat)) * d + j)) ↔
      ∀ row col, InGrid (d : Int) row col →
        cell b row col = 0 ∨ cell b row col = row * d + col + 1 := by
    constructor
    · intro h row col ⟨hr0, hr, hc0, hc⟩
      lift row to ℕ using hr0
      lift col to ℕ using hc0
      rcases h row col (by omega) (by omega) (by omega) with h | h
      · exact Or.inl h
      · right; rw [h]; push_cast; ring
    · intro h i j _ hi hj
      rcases h i j ⟨by omega, by omega, by omega, by omega⟩ with h | h
      · exact Or.inl h
      · right; rw [h]; push_cast; ring
  rw [← hequiv]
  unfold won
  simp only [Int.toNat_ofNat, List.range_eq_range']
  by_cases hall : ∀ i j : Nat, 0 ≤ i → i < 0 + d → j < d →
        cell b i j = 0 ∨ cell b i j = 1 + (((i : Int) - (0 : Nat)) * d + j)
  · rw [r1 hall]; exact iff_of_true rfl hall
  · rw [r2 hall]; exact iff_of_false (by decide) hall

/-! ## The search loops of `move` -/

theorem findRow_fold (b : Board) (tile i : Int) (rc : Int × Int) (m : Nat) :
    ((∀ j : Nat, j < m → cell b i j ≠ tile) ∧
      (List.range m).foldl
        (fun s (j : Nat) => if cell b i (j : Int) = tile then (i, (j : Int)) else s) rc = rc) ∨
    (∃ j : Nat, j < m ∧ cell b i j = tile ∧
      (List.range m).foldl
        (fun s (j : Nat) => if cell b i (j : Int) = tile then (i, (j : Int)) else s) rc
          = (i, (j : Int)) ∧
      ∀ j1 : Nat, j1 < m → cell b i j1 = tile → j1 ≤ j) := by
  induction m with
  | zero => left; simp
  | succ m ih =>
    simp only [List.range_succ, List.foldl_append, List.foldl_cons, List.foldl_nil]
    by_cases hm : cell b i (m : Int) = tile
    · right
      refine ⟨m, by omega, hm, by rw [if_pos hm], fun j1 h1 _ => by omega⟩
    · rw [if_neg hm]
      rcases ih with ⟨h1, h2⟩ | ⟨j, hj, hc, hres, hlast⟩
      · left
        refine ⟨fun j hj => ?_, h2⟩
        by_cases hjm : j = m
        · subst hjm; exact hm
        · exact h1 j (by omega)
      · right
        refine ⟨j, by omega, hc, hres, fun j1 h1 hc1 => ?_⟩
        by_cases hjm : j1 = m
        · subst hjm; exact absurd hc1 hm
        · exact hlast j1 (by omega) hc1

theorem findTile_fold (n : Nat) (b : Board) (tile : Int) (rc : Int × Int) (m : Nat) :
    ((∀ i j : Nat, i < m → j < n → cell b i j ≠ tile) ∧
      (List.range m).foldl (fun s (i : Nat) => findRow (n : Int) b tile (i : Int) s) rc = rc) ∨
    (∃ i j : Nat, i < m ∧ j < n ∧ cell b i j = tile ∧
      (List.range m).foldl (fun s (i : Nat) => findRow (n : Int) b tile (i : Int) s) rc
        = ((i : Int), (j : Int)) ∧
      ∀ i1 j1 : Nat, i1 < m → j1 < n → cell b i1 j1 = tile → i1 < i ∨ (i1 = i ∧ j1 ≤ j)) := by
  induction m with
  | zero => left; simp
  | succ m ih =>
    simp only [List.range_succ, List.foldl_append, List.foldl_cons, List.foldl_nil]
    generalize (List.range m).foldl
      (fun s (i : Nat) => findRow (n : Int) b tile (i : Int) s) rc = mid at ih
    have hrow : findRow (n : Int) b tile (m : Int) mid
        = (List.range n).foldl
          (fun s (j : Nat) => if cell b (m : Int) (j : Int) = tile then ((m : Int), (j : Int)) else s)
          mid := by
      simp [findRow]
    rw [hrow]
    rcases findRow_fold b tile (m : Int) mid n with ⟨r1, r2⟩ | ⟨j, hj, hc, hres, hlast⟩
    · rw [r2]
      rcases ih with ⟨h1, h2⟩ | ⟨i0, j0, hi0, hj0, hc0, hres0, hlast0⟩
      · left
        refine ⟨fun i j hi hj => ?_, h2⟩
        by_cases him : i = m
        · subst him; exact r1 j hj
        · exact h1 i j (by omega) hj
      · right
        refine ⟨i0, j0, by omega, hj0, hc0, hres0, fun i1 j1 h1 h2 hc1 => ?_⟩
        by_cases him : i1 = m
        · subst him; exact absurd hc1 (r1 j1 h2)
        · exact hlast0 i1 j1 (by omega) h2 hc1
    · right
      refine ⟨m, j, by omega, hj, hc, hres, fun i1 j1 h1 h2 hc1 => ?_⟩
      by_cases him : i1 = m
      · subst him; exact Or.inr ⟨rfl, hlast j1 h2 hc1⟩
      · left; omega

/-- What the search of `move` leaves in `(r, c)`: `(0, 0)` when no cell of the
grid holds `tile`, else the last cell in row-major order that holds it. -/
theorem findTile_spec (d : Int) (h0 : 0 ≤ d) (b : Board) (tile : Int) :
    ((∀ i j, InGrid d i j → cell b i j ≠ tile) ∧ findTile d b tile = (0, 0)) ∨
    (InGrid d (findTile d b tile).1 (findTile d b tile).2 ∧
      cell b (findTile d b tile).1 (findTile d b tile).2 = tile ∧
      ∀ i j, InGrid d i j → cell b i j = tile →
        i < (findTile d b tile).1 ∨
          (i = (findTile d b tile).1 ∧ j ≤ (findTile d b tile).2)) := by
  lift d to ℕ using h0
  have hf : findTile (d : Int) b tile
      = (List.range d).foldl (fun s (i : Nat) => findRow (d : Int) b tile (i : Int) s) (0, 0) := by
    simp [findTile]
  rw [hf]
  rcases findTile_fold d b tile (0, 0) d with ⟨h1, h2⟩ | ⟨i, j, hi, hj, hc, hres, hlast⟩
  · left
    refine ⟨fun i j ⟨hi0, hi, hj0, hj⟩ => ?_, h2⟩
    lift i to ℕ using hi0
    lift j to ℕ using hj0
    exact h1 i j (by omega) (by omega)
  · right
    rw [hres]
    refine ⟨⟨by simp, by simpa using hi, by simp, by simpa using hj⟩, hc, ?_⟩
    intro i1 j1 ⟨hi0, hi1, hj0, hj1⟩ hc1
    lift i1 to ℕ using hi0
    lift j1 to ℕ using hj0
    have := hlast i1 j1 (by omega) (by omega) hc1
    simp only [] 
    omega

/-- The cell found by the search of `move` is a cell of the grid. -/
theorem findTile_inGrid (d : Int) (h1 : 1 ≤ d) (b : Board) (tile : Int) :
    InGrid d (findTile d b tile).1 (findTile d b tile).2 := by
  rcases findTile_spec d (by omega) b tile with ⟨_, h⟩ | ⟨h, _⟩
  · rw [h]; exact ⟨le_refl _, by simpa using h1, le_refl _, by simpa using h1⟩
  · exact h

/-- When some cell of the grid holds `tile`, the search of `move` finds such a cell. -/
theorem findTile_cell (d : Int) (h0 : 0 ≤ d) (b : Board) (tile : Int) (i j : Int)
    (hg : InGrid d i j) (hc : cell b i j = tile) :
    cell b (findTile d b tile).1 (findTile d b tile).2 = tile := by
  rcases findTile_spec d h0 b tile with ⟨h, _⟩ | ⟨_, h, _⟩
  · exact absurd hc (h i j hg)
  · exact h

/-! ## The branches of `move` -/

/-- A call of `move` that returns `0` has not written to the board. -/
theorem move_zero_frame (d : Int) (b : Board) (tile : Int) (h : (move d b tile).2 = 0) :
    (move d b tile).1 = b := by
  unfold move at h ⊢
  simp only [] at h ⊢
  split_ifs at h ⊢ <;> first | rfl | (exact absurd h (by simp))

/-- A tile out of `[1, d * d - 1]` is rejected before any read of the board. -/
theorem move_out_of_range (d : Int) (b : Board) (tile : Int)
    (h : tile < 1 ∨ tile > d * d - 1) : move d b tile = (b, 0) := by
  unfold move
  simp only []
  rw [if_pos (by omega)]

/-- The two outcomes of `move` for a tile in range: no neighbour of the found
cell inside the grid holds `0` and nothing happens, or the found cell is
exchanged with a neighbour inside the grid that holds `0`. -/
theorem move_in_range (d : Int) (h1 : 1 ≤ d) (b : Board) (tile : Int)
    (hlo : 1 ≤ tile) (hhi : tile ≤ d * d - 1) :
    (move d b tile = (b, 0) ∧
      ∀ r1 c1, InGrid d r1 c1 →
        Adjacent (findTile d b tile).1 (findTile d b tile).2 r1 c1 → cell b r1 c1 ≠ 0) ∨
    (∃ r1 c1, InGrid d r1 c1 ∧
      Adjacent (findTile d b tile).1 (findTile d b tile).2 r1 c1 ∧ cell b r1 c1 = 0 ∧
      move d b tile = (slide b (findTile d b tile).1 (findTile d b tile).2 r1 c1, 1)) := by
  obtain ⟨hr0, hr, hc0, hc⟩ := findTile_inGrid d h1 b tile
  unfold move
  simp only []
  rw [if_neg (by omega)]
  generalize (findTile d b tile).1 = r at *
  generalize (findTile d b tile).2 = c at *
  by_cases hR : cell b r (c + 1) = 0 ∧ c + 1 < d
  · rw [if_pos hR]
    exact Or.inr ⟨r, c + 1, ⟨hr0, hr, by omega, hR.2⟩, Or.inl ⟨rfl, Or.inl rfl⟩, hR.1, rfl⟩
  rw [if_neg hR]
  by_cases hL : cell b r (c - 1) = 0 ∧ c - 1 ≥ 0
  · rw [if_pos hL]
    exact Or.inr ⟨r, c - 1, ⟨hr0, hr, hL.2, by omega⟩, Or.inl ⟨rfl, Or.inr rfl⟩, hL.1, rfl⟩
  rw [if_neg hL]
  by_cases hD : cell b (r + 1) c = 0 ∧ r + 1 < d
  · rw [if_pos hD]
    exact Or.inr ⟨r + 1, c, ⟨by omega, hD.2, hc0, hc⟩, Or.inr ⟨rfl, Or.inl rfl⟩, hD.1, rfl⟩
  rw [if_neg hD]
  by_cases hU : cell b (r - 1) c = 0 ∧ r - 1 ≥ 0
  · rw [if_pos hU]
    exact Or.inr ⟨r - 1, c, ⟨hU.2, by omega, hc0, hc⟩, Or.inr ⟨rfl, Or.inr rfl⟩, hU.1, rfl⟩
  rw [if_neg hU]
  left
  refine ⟨rfl, ?_⟩
  rintro r1 c1 ⟨g1, g2, g3, g4⟩ hadj hz
  rcases hadj with ⟨rfl, rfl | rfl⟩ | ⟨rfl, rfl | rfl⟩
  · exact hR ⟨hz, g4⟩
  · exact hL ⟨hz, g3⟩
  · exact hD ⟨hz, g2⟩
  · exact hU ⟨hz, g1⟩

/-! ## The cells of the grid as a list -/

theorem cells_eq_map (d : Int) (b : Board) :
    cells d b = (positions d).map fun p => cell b (p.1 : Int) (p.2 : Int) := by
  simp [cells, rows, positions, List.product, List.flatMap_def, List.map_flatten,
    List.map_map, Function.comp_def]

theorem mem_positions (d : Int) (p : Nat × Nat) :
    p ∈ positions d ↔ InGrid d (p.1 : Int) (p.2 : Int) := by
  obtain ⟨i, j⟩ := p
  show (i, j) ∈ List.range d.toNat ×ˢ List.range d.toNat ↔ _
  simp only [List.mem_product, List.mem_range, InGrid, Int.lt_toNat]
  constructor
  · rintro ⟨h1, h2⟩; exact ⟨by omega, h1, by omega, h2⟩
  · rintro ⟨_, h1, _, h2⟩; exact ⟨h1, h2⟩

theorem nodup_positions (d : Int) : (positions d).Nodup :=
  List.Nodup.product (List.nodup_range _) (List.nodup_range _)

theorem nodup_tileValues (d : Int) : (tileValues d).Nodup :=
  List.Nodup.map (fun _ _ h => Int.ofNat.inj h) (List.nodup_range _)

theorem mem_tileValues (d v : Int) : v ∈ tileValues d ↔ 0 ≤ v ∧ v < d * d := by
  simp only [tileValues, List.mem_map, List.mem_range]
  constructor
  · rintro ⟨k, hk, rfl⟩; omega
  · rintro ⟨h0, h1⟩
    exact ⟨v.toNat, by omega, by omega⟩

/-- On a permutation board two cells of the grid with the same value are the same cell. -/
theorem IsPermBoard.inj {d : Int} {b : Board} (hp : IsPermBoard d b) {i j i1 j1 : Int}
    (hg : InGrid d i j) (hg1 : InGrid d i1 j1) (he : cell b i j = cell b i1 j1) :
    i = i1 ∧ j = j1 := by
  have hnd : (cells d b).Nodup := (List.Perm.nodup_iff hp).2 (nodup_tileValues d)
  rw [cells_eq_map] at hnd
  have hinj := List.inj_on_of_nodup_map hnd
  obtain ⟨hi0, hi, hj0, hj⟩ := hg
  obtain ⟨hi10, hi1, hj10, hj1⟩ := hg1
  lift i to ℕ using hi0
  lift j to ℕ using hj0
  lift i1 to ℕ using hi10
  lift j1 to ℕ using hj10
  have := hinj (x := (i, j)) ((mem_positions d _).2 ⟨by simp, hi, by simp, hj⟩)
    (y := (i1, j1)) ((mem_positions d _).2 ⟨by simp, hi1, by simp, hj1⟩) he
  simp only [Prod.mk.injEq] at this
  omega

/-- On a permutation board every value of `0 .. d * d - 1` is in some cell of the grid. -/
theorem IsPermBoard.exists_cell {d : Int} {b : Board} (hp : IsPermBoard d b) {v : Int}
    (h0 : 0 ≤ v) (h1 : v < d * d) : ∃ i j, InGrid d i j ∧ cell b i j = v := by
  have hm : v ∈ cells d b := (List.Perm.mem_iff hp).2 ((mem_tileValues d v).2 ⟨h0, h1⟩)
  rw [cells_eq_map, List.mem_map] at hm
  obtain ⟨p, hp1, hp2⟩ := hm
  exact ⟨p.1, p.2, (mem_positions d p).1 hp1, hp2⟩

/-- Exchanging two positions permutes the list of positions. -/
theorem positions_exchange_perm (d : Int) (p q : Nat × Nat) (hp : p ∈ positions d)
    (hq : q ∈ positions d) :
    List.Perm ((positions d).map fun x => if x = p then q else if x = q then p else x)
      (positions d) := by
  have hinj : Function.Injective
      (fun x : Nat × Nat => if x = p then q else if x = q then p else x) := by
    intro x y h
    simp only at h
    split_ifs at h <;> simp_all
  refine (List.perm_ext_iff_of_nodup (List.Nodup.map hinj (nodup_positions d))
    (nodup_positions d)).2 (fun a => ?_)
  simp only [List.mem_map]
  constructor
  · rintro ⟨x, hx, rfl⟩
    split_ifs <;> assumption
  · intro ha
    by_cases hap : a = p
    · subst hap
      by_cases hqa : q = a
      · exact ⟨a, ha, by simp [hqa]⟩
      · exact ⟨q, hq, by simp [hqa]⟩
    · by_cases haq : a = q
      · subst haq; exact ⟨p, hp, by simp⟩
      · exact ⟨a, ha, by simp [hap, haq]⟩

/-- A board that differs from `b` by the exchange of the values of two cells of the
grid has the same cells up to order. -/
theorem cells_exchange_perm (d : Int) (b b1 : Board) (p q : Nat × Nat)
    (hp : p ∈ positions d) (hq : q ∈ positions d)
    (h1 : cell b1 (p.1 : Int) (p.2 : Int) = cell b (q.1 : Int) (q.2 : Int))
    (h2 : cell b1 (q.1 : Int) (q.2 : Int) = cell b (p.1 : Int) (p.2 : Int))
    (h3 : ∀ x ∈ positions d, x ≠ p → x ≠ q →
      cell b1 (x.1 : Int) (x.2 : Int) = cell b (x.1 : Int) (x.2 : Int)) :
    List.Perm (cells d b1) (cells d b) := by
  rw [cells_eq_map, cells_eq_map]
  have hmap : (positions d).map (fun x => cell b1 (x.1 : Int) (x.2 : Int))
      = ((positions d).map fun x => if x = p then q else if x = q then p else x).map
          (fun x => cell b (x.1 : Int) (x.2 : Int)) := by
    rw [List.map_map]
    refine List.map_congr_left (fun x hx => ?_)
    simp only [Function.comp]
    by_cases hxp : x = p
    · subst hxp; simp [h1]
    · by_cases hxq : x = q
      · subst hxq; simp [hxp, h2]
      · simp [hxp, hxq, h3 x hx hxp hxq]
  rw [hmap]
  exact (positions_exchange_perm d p q hp hq).map _

/-- The two assignments of a successful `move` keep the cells up to order. -/
theorem slide_cells_perm (d : Int) (h9 : d ≤ 9) (b : Board) (r c r1 c1 : Int)
    (hg : InGrid d r c) (hg1 : InGrid d r1 c1) (hz : cell b r1 c1 = 0) :
    List.Perm (cells d (slide b r c r1 c1)) (cells d b) := by
  obtain ⟨hr0, hr, hc0, hc⟩ := hg
  obtain ⟨hr10, hr1, hc10, hc1⟩ := hg1
  lift r to ℕ using hr0
  lift c to ℕ using hc0
  lift r1 to ℕ using hr10
  lift c1 to ℕ using hc10
  have hp : (r, c) ∈ positions d := (mem_positions d _).2 ⟨by simp, hr, by simp, hc⟩
  have hq : (r1, c1) ∈ positions d := (mem_positions d _).2 ⟨by simp, hr1, by simp, hc1⟩
  refine cells_exchange_perm d b _ (r, c) (r1, c1) hp hq ?_ ?_ ?_
  · simp only [slide, cell_store, if_true, hz]
  · simp only [slide, cell_store]
    by_cases hsame : idx (r1 : Int) c1 = idx (r : Int) c
    · rw [if_pos hsame]
      have := (idx_inj (by omega) (by omega) (by omega) (by omega)).1 hsame
      rw [← this.1, ← this.2, hz]
    · simp [hsame]
  · intro x hx hxp hxq
    obtain ⟨_, hx1, _, hx2⟩ := (mem_positions d x).1 hx
    have e1 : idx (x.1 : Int) x.2 ≠ idx (r : Int) c := by
      intro h
      have := (idx_inj (by omega) (by omega) (by omega) (by omega)).1 h
      exact hxp (Prod.ext (by simpa using this.1) (by simpa using this.2))
    have e2 : idx (x.1 : Int) x.2 ≠ idx (r1 : Int) c1 := by
      intro h
      have := (idx_inj (by omega) (by omega) (by omega) (by omega)).1 h
      exact hxq (Prod.ext (by simpa using this.1) (by simpa using this.2))
    simp only [slide, cell_store, if_neg e1, if_neg e2]

/-- Every call of `move`, on every board, keeps the cells of the grid up to order. -/
theorem move_cells_perm (d : Int) (h1 : 1 ≤ d) (h9 : d ≤ 9) (b : Board) (tile : Int) :
    List.Perm (cells d (move d b tile).1) (cells d b) := by
  by_cases hr : tile < 1 ∨ tile > d * d - 1
  · rw [move_out_of_range d b tile hr]
  · rcases move_in_range d h1 b tile (by omega) (by omega) with ⟨h, _⟩ | ⟨r1, c1, hg, _, hz, h⟩
    · rw [h]
    · rw [h]
      exact slide_cells_perm d h9 b _ _ r1 c1 (findTile_inGrid d h1 b tile) hg hz

/-! ## `init` produces a permutation board -/

theorem referenceLayout_range (d : Int) (h3 : 3 ≤ d) (h9 : d ≤ 9) (i j : Int)
    (hg : InGrid d i j) : 0 ≤ referenceLayout d i j ∧ referenceLayout d i j < d * d := by
  obtain ⟨hi0, hi, hj0, hj⟩ := hg
  unfold referenceLayout reversedLayout
  interval_cases d <;> split_ifs <;> omega

theorem referenceLayout_inj (d : Int) (h3 : 3 ≤ d) (h9 : d ≤ 9) (i j i1 j1 : Int)
    (hg : InGrid d i j) (hg1 : InGrid d i1 j1)
    (he : referenceLayout d i j = referenceLayout d i1 j1) : i = i1 ∧ j = j1 := by
  obtain ⟨hi0, hi, hj0, hj⟩ := hg
  obtain ⟨hi10, hi1, hj10, hj1⟩ := hg1
  unfold referenceLayout reversedLayout at he
  interval_cases d <;> split_ifs at he <;> omega

theorem cells_init (d : Int) (h3 : 3 ≤ d) (h9 : d ≤ 9) (b : Board) :
    cells d (init d b)
      = (positions d).map fun p => referenceLayout d (p.1 : Int) (p.2 : Int) := by
  rw [cells_eq_map]
  exact List.map_congr_left fun p hp => init_cell d h3 h9 b _ _ ((mem_positions d p).1 hp)

/-- The board that `init` leaves is a permutation of `0 .. d * d - 1`, whatever the
memory held before. -/
theorem init_isPermBoard (d : Int) (h3 : 3 ≤ d) (h9 : d ≤ 9) (b : Board) :
    IsPermBoard d (init d b) := by
  unfold IsPermBoard
  rw [cells_init d h3 h9 b]
  have hnd : ((positions d).map
      fun p => referenceLayout d (p.1 : Int) (p.2 : Int)).Nodup := by
    refine List.Nodup.map_on (fun x hx y hy he => ?_) (nodup_positions d)
    have := referenceLayout_inj d h3 h9 _ _ _ _ ((mem_positions d x).1 hx)
      ((mem_positions d y).1 hy) he
    exact Prod.ext (by exact_mod_cast this.1) (by exact_mod_cast this.2)
  have hsub : ((positions d).map fun p => referenceLayout d (p.1 : Int) (p.2 : Int))
      ⊆ tileValues d := by
    intro v hv
    rw [List.mem_map] at hv
    obtain ⟨p, hp, rfl⟩ := hv
    exact (mem_tileValues d _).2
      (referenceLayout_range d h3 h9 _ _ ((mem_positions d p).1 hp))
  refine (List.subperm_of_subset hnd hsub).perm_of_length_le ?_
  have hlen : (positions d).length = d.toNat * d.toNat := by
    show (List.range d.toNat ×ˢ List.range d.toNat).length = _
    rw [List.length_product, List.length_range]
  rw [List.length_map, hlen, tileValues, List.length_map, List.length_range]
  interval_cases d <;> decide

/-- A permutation board stays one under `move`, for every argument. -/
theorem move_isPermBoard (d : Int) (h1 : 1 ≤ d) (h9 : d ≤ 9) (b : Board) (tile : Int)
    (hp : IsPermBoard d b) : IsPermBoard d (move d b tile).1 :=
  (move_cells_perm d h1 h9 b tile).trans hp

theorem play_isPermBoard (d : Int) (h3 : 3 ≤ d) (h9 : d ≤ 9) (b : Board) (tiles : List Int) :
    IsPermBoard d (play d b tiles) := by
  unfold play
  have key : ∀ (ts : List Int) (b0 : Board), IsPermBoard d b0 →
      IsPermBoard d (ts.foldl (fun b t => (move d b t).1) b0) := by
    intro ts
    induction ts with
    | nil => intro b0 h; exact h
    | cons t ts ih =>
      intro b0 h
      exact ih _ (move_isPermBoard d (by omega) h9 b0 t h)
  exact key tiles _ (init_isPermBoard d h3 h9 b)

/-! ## `move` on permutation boards -/

theorem adjacent_symm {r c r1 c1 : Int} (h : Adjacent r c r1 c1) : Adjacent r1 c1 r c := by
  unfold Adjacent at h ⊢; omega

theorem adjacent_idx_ne {r c r1 c1 : Int} (h : Adjacent r c r1 c1) :
    idx r1 c1 ≠ idx r c := by
  unfold Adjacent at h
  unfold idx DIM_MAX
  omega

/-- On a permutation board the search of `move` ends on the cell of the tile. -/
theorem findTile_eq_of_perm {d : Int} (h1 : 1 ≤ d) {b : Board} (hp : IsPermBoard d b)
    {tile tr tc : Int} (hg : InGrid d tr tc) (ht : cell b tr tc = tile) :
    findTile d b tile = (tr, tc) := by
  have hc := findTile_cell d (by omega) b tile tr tc hg ht
  have := hp.inj (findTile_inGrid d h1 b tile) hg (hc.trans ht.symm)
  exact Prod.ext this.1 this.2

/-- On a permutation board, `move` of a tile next to the blank performs the two
assignments on the cell of the tile and the cell of the blank. -/
theorem move_adjacent_eq {d : Int} (h1 : 1 ≤ d) {b : Board} (hp : IsPermBoard d b)
    {tile : Int} (hlo : 1 ≤ tile) (hhi : tile ≤ d * d - 1) {tr tc br bc : Int}
    (hgt : InGrid d tr tc) (hgb : InGrid d br bc) (ht : cell b tr tc = tile)
    (hb : cell b br bc = 0) (hadj : Adjacent tr tc br bc) :
    move d b tile = (slide b tr tc br bc, 1) := by
  have hf := findTile_eq_of_perm h1 hp hgt ht
  rcases move_in_range d h1 b tile hlo hhi with ⟨_, h⟩ | ⟨r1, c1, hg1, _, hz, h⟩
  · rw [hf] at h
    exact absurd hb (h br bc hgb hadj)
  · rw [hf] at h
    have := hp.inj hg1 hgb (hz.trans hb.symm)
    rw [h, this.1, this.2]

theorem cell_slide_tile (b : Board) (r c r1 c1 : Int) : cell (slide b r c r1 c1) r c = 0 := by
  simp [slide, cell_store]

theorem cell_slide_blank (b : Board) {r c r1 c1 : Int} (hne : idx r1 c1 ≠ idx r c) :
    cell (slide b r c r1 c1) r1 c1 = cell b r c := by
  simp [slide, cell_store, hne]

/-- Sliding back restores the memory. -/
theorem slide_slide (b : Board) {r c r1 c1 : Int} (hne : idx r1 c1 ≠ idx r c)
    (hz : cell b r1 c1 = 0) : slide (slide b r c r1 c1) r1 c1 r c = b := by
  funext a
  have e1 : cell (slide b r c r1 c1) r1 c1 = cell b r c := cell_slide_blank b hne
  show store (store (slide b r c r1 c1) r c (cell (slide b r c r1 c1) r1 c1)) r1 c1 0 a = b a
  rw [e1]
  unfold store slide store
  by_cases ha1 : a = idx r1 c1
  · rw [if_pos ha1, ha1]; exact hz.symm
  · rw [if_neg ha1]
    by_cases ha : a = idx r c
    · rw [if_pos ha, ha]; rfl
    · rw [if_neg ha, if_neg ha, if_neg ha1]

/-- The return value of `move` is `0` or `1`. -/
theorem move_zero_or_one (d : Int) (b : Board) (tile : Int) :
    (move d b tile).2 = 0 ∨ (move d b tile).2 = 1 := by
  unfold move
  simp only []
  split_ifs <;> simp

/-- On a permutation board exactly a tile in range next to the blank is moved. -/
theorem move_eq_one_iff {d : Int} (h1 : 1 ≤ d) {b : Board} (hp : IsPermBoard d b)
    (tile : Int) :
    (move d b tile).2 = 1 ↔
      1 ≤ tile ∧ tile ≤ d * d - 1 ∧ ∃ tr tc br bc, InGrid d tr tc ∧ InGrid d br bc ∧
        cell b tr tc = tile ∧ cell b br bc = 0 ∧ Adjacent tr tc br bc := by
  constructor
  · intro hm
    by_cases hr : tile < 1 ∨ tile > d * d - 1
    · rw [move_out_of_range d b tile hr] at hm
      exact absurd hm (by simp)
    · have hlo : 1 ≤ tile := by omega
      have hhi : tile ≤ d * d - 1 := by omega
      obtain ⟨tr, tc, hg, ht⟩ := hp.exists_cell (v := tile) (by omega) (by omega)
      have hf := findTile_eq_of_perm h1 hp hg ht
      rcases move_in_range d h1 b tile hlo hhi with ⟨h, _⟩ | ⟨r1, c1, hg1, hadj, hz, _⟩
      · rw [h] at hm
        exact absurd hm (by simp)
      · rw [hf] at hadj
        exact ⟨hlo, hhi, tr, tc, r1, c1, hg, hg1, ht, hz, hadj⟩
  · rintro ⟨hlo, hhi, tr, tc, br, bc, hgt, hgb, ht, hb, hadj⟩
    rw [move_adjacent_eq h1 hp hlo hhi hgt hgb ht hb hadj]

/-- The return value of `won` is `0` or `1`. -/
theorem won_zero_or_one (d : Int) (b : Board) : won d b = 0 ∨ won d b = 1 := by
  unfold won
  split <;> simp

theorem rows_init (d : Int) (h3 : 3 ≤ d) (h9 : d ≤ 9) (b : Board) :
    rows d (init d b) = (List.range d.toNat).map fun (i : Nat) =>
      (List.range d.toNat).map fun (j : Nat) => referenceLayout d (i : Int) (j : Int) := by
  unfold rows
  refine List.map_congr_left fun i hi => List.map_congr_left fun j hj => ?_
  rw [List.mem_range, Int.lt_toNat] at hi hj
  exact init_cell d h3 h9 b _ _ ⟨by omega, hi, by omega, hj⟩

theorem count_of_isPermBoard {d : Int} {b : Board} (hp : IsPermBoard d b) {v : Int}
    (h0 : 0 ≤ v) (h1 : v ≤ d * d - 1) : (cells d b).count v = 1 := by
  rw [List.Perm.count_eq hp]
  exact List.count_eq_one_of_mem (nodup_tileValues d) ((mem_tileValues d v).2 ⟨h0, by omega⟩)

/-! ## The claims -/

/-- C1: for every d in [3,9] and whatever the memory held before, every cell
`(i, j)` of the board produced by `init` holds the value of the reference layout:
`(d*d-1) - (i*d+j)`, with the values of the cells `(d-1,d-3)` and `(d-1,d-2)` of that
reversed layout exchanged when `d*d` is even and no cell exchanged when `d*d` is
odd; for d = 3 the rows are `[8,7,6],[5,4,3],[2,1,0]`. -/
theorem C1_init_reference_layout (d : Int) (h3 : 3 ≤ d) (h9 : d ≤ 9) (b : Board) :
    (∀ i j, InGrid d i j → cell (init d b) i j = referenceLayout d i j) ∧
    (d = 3 → rows d (init d b) = [[8, 7, 6], [5, 4, 3], [2, 1, 0]]) := by
  refine ⟨fun i j hg => init_cell d h3 h9 b i j hg, fun h => ?_⟩
  rw [rows_init d h3 h9 b]
  subst h
  decide

/-- Witness of C1 at d = 3 on the zero-initialised memory. -/
theorem C1_init_reference_layout_witness :
    (3 : Int) ≤ 3 ∧ (3 : Int) ≤ 9 ∧ cell (init 3 zeroBoard) 2 1 = 1 ∧
      rows 3 (init 3 zeroBoard) = [[8, 7, 6], [5, 4, 3], [2, 1, 0]] :=
  ⟨by decide, by decide,
    (C1_init_reference_layout 3 (by decide) (by decide) zeroBoard).1 2 1 (by decide),
    (C1_init_reference_layout 3 (by decide) (by decide) zeroBoard).2 rfl⟩

/-- C2: for every d in [3,9], every board whose cells are a permutation of
`0 .. d*d-1` and every tile in `[1, d*d-1]` whose cell `(tr, tc)` is orthogonally
adjacent to the cell `(br, bc)` holding 0, `move(tile)` returns 1 and afterwards
the blank is at `(tr, tc)` and the tile at `(br, bc)`. -/
theorem C2_move_adjacent (d : Int) (h3 : 3 ≤ d) (_h9 : d ≤ 9) (b : Board)
    (hp : IsPermBoard d b) (tile : Int) (hlo : 1 ≤ tile) (hhi : tile ≤ d * d - 1)
    (tr tc br bc : Int) (hgt : InGrid d tr tc) (hgb : InGrid d br bc)
    (ht : cell b tr tc = tile) (hb : cell b br bc = 0) (hadj : Adjacent tr tc br bc) :
    (move d b tile).2 = 1 ∧ cell (move d b tile).1 tr tc = 0 ∧
      cell (move d b tile).1 br bc = tile := by
  rw [move_adjacent_eq (by omega) hp hlo hhi hgt hgb ht hb hadj]
  exact ⟨rfl, cell_slide_tile b tr tc br bc,
    (cell_slide_blank b (adjacent_idx_ne hadj)).trans ht⟩

/-- Witness of C2: d = 3, the board `[8,7,6],[5,4,3],[2,1,0]`, tile 1 at `(2,1)`,
blank at `(2,2)`. -/
theorem C2_move_adjacent_witness :
    IsPermBoard 3 (ofRows [[8, 7, 6], [5, 4, 3], [2, 1, 0]]) ∧
      cell (ofRows [[8, 7, 6], [5, 4, 3], [2, 1, 0]]) 2 1 = 1 ∧
      cell (ofRows [[8, 7, 6], [5, 4, 3], [2, 1, 0]]) 2 2 = 0 ∧ Adjacent 2 1 2 2 ∧
      (move 3 (ofRows [[8, 7, 6], [5, 4, 3], [2, 1, 0]]) 1).2 = 1 ∧
      cell (move 3 (ofRows [[8, 7, 6], [5, 4, 3], [2, 1, 0]]) 1).1 2 1 = 0 ∧
      cell (move 3 (ofRows [[8, 7, 6], [5, 4, 3], [2, 1, 0]]) 1).1 2 2 = 1 :=
  ⟨by decide, by decide, by decide, by decide,
    C2_move_adjacent 3 (by decide) (by decide) (ofRows [[8, 7, 6], [5, 4, 3], [2, 1, 0]])
      (by decide) 1 (by decide) (by decide) 2 1 2 2 (by decide) (by decide) (by decide)
      (by decide) (by decide)⟩

/-- C3: for every d in [3,9], every board whose cells are a permutation of
`0 .. d*d-1` and every tile: if the tile is in `[1, d*d-1]` and its cell `(tr, tc)`
has no orthogonal neighbour inside the grid that holds 0, `move(tile)` returns 0
and leaves the memory unchanged; and `move(tile)` returns 1 if and only if the
tile is in range and its cell is orthogonally adjacent to the cell of the blank. -/
theorem C3_move_not_adjacent (d : Int) (h3 : 3 ≤ d) (_h9 : d ≤ 9) (b : Board)
    (hp : IsPermBoard d b) (tile : Int) :
    (∀ tr tc, 1 ≤ tile → tile ≤ d * d - 1 → InGrid d tr tc → cell b tr tc = tile →
      (∀ r1 c1, InGrid d r1 c1 → Adjacent tr tc r1 c1 → cell b r1 c1 ≠ 0) →
      (move d b tile).2 = 0 ∧ (move d b tile).1 = b) ∧
    ((move d b tile).2 = 1 ↔
      1 ≤ tile ∧ tile ≤ d * d - 1 ∧ ∃ tr tc br bc, InGrid d tr tc ∧ InGrid d br bc ∧
        cell b tr tc = tile ∧ cell b br bc = 0 ∧ Adjacent tr tc br bc) := by
  refine ⟨fun tr tc hlo hhi hg ht hno => ?_, move_eq_one_iff (by omega) hp tile⟩
  have hz : (move d b tile).2 = 0 := by
    rcases move_zero_or_one d b tile with h | h
    · exact h
    · obtain ⟨_, _, tr1, tc1, br, bc, hg1, hgb, ht1, hb, hadj⟩ :=
        (move_eq_one_iff (by omega) hp tile).1 h
      have := hp.inj hg1 hg (ht1.trans ht.symm)
      rw [this.1, this.2] at hadj
      exact absurd hb (hno br bc hgb hadj)
  exact ⟨hz, move_zero_frame d b tile hz⟩

/-- Witness of C3: d = 3, the board `[8,7,6],[5,4,3],[2,1,0]`, tile 8 at `(0,0)`, whose
neighbours in the grid hold 7 and 5. -/
theorem C3_move_not_adjacent_witness :
    IsPermBoard 3 (ofRows [[8, 7, 6], [5, 4, 3], [2, 1, 0]]) ∧
      (move 3 (ofRows [[8, 7, 6], [5, 4, 3], [2, 1, 0]]) 8).2 = 0 ∧
      (move 3 (ofRows [[8, 7, 6], [5, 4, 3], [2, 1, 0]]) 8).1
        = ofRows [[8, 7, 6], [5, 4, 3], [2, 1, 0]] :=
  ⟨by decide,
    (C3_move_not_adjacent 3 (by decide) (by decide) (ofRows [[8, 7, 6], [5, 4, 3], [2, 1, 0]])
      (by decide) 8).1 0 0 (by decide) (by decide) (by decide) (by decide)
      (fun r1 c1 hg hadj => by
        rcases hadj with ⟨rfl, rfl | rfl⟩ | ⟨rfl, rfl | rfl⟩
        · decide
        · exact absurd hg (by decide)
        · decide
        · exact absurd hg (by decide))⟩

/-- C4: for every d in [3,9], every board and every integer tile with `tile < 1`
or `tile > d*d-1`, `move(tile)` returns 0 and leaves the memory unchanged. -/
theorem C4_move_out_of_range (d : Int) (_h3 : 3 ≤ d) (_h9 : d ≤ 9) (b : Board) (tile : Int)
    (h : tile < 1 ∨ tile > d * d - 1) :
    (move d b tile).2 = 0 ∧ (move d b tile).1 = b := by
  rw [move_out_of_range d b tile h]
  exact ⟨rfl, rfl⟩

/-- Witness of C4: d = 3 and tile 9 = d*d on the board `[8,7,6],[5,4,3],[2,1,0]`. -/
theorem C4_move_out_of_range_witness :
    ((9 : Int) < 1 ∨ (9 : Int) > 3 * 3 - 1) ∧
      (move 3 (ofRows [[8, 7, 6], [5, 4, 3], [2, 1, 0]]) 9).2 = 0 ∧
      (move 3 (ofRows [[8, 7, 6], [5, 4, 3], [2, 1, 0]]) 9).1
        = ofRows [[8, 7, 6], [5, 4, 3], [2, 1, 0]] :=
  ⟨by decide,
    C4_move_out_of_range 3 (by decide) (by decide) (ofRows [[8, 7, 6], [5, 4, 3], [2, 1, 0]]) 9
      (by decide)⟩

/-- C5: for every d in [3,9] and every content of the board, `won` returns 1 if
and only if every cell `(row, col)` of the grid holds 0 or `row*d+col+1`, and it
returns 0 otherwise.  (`won` has no assignment to `board`: it is a function of
the board that yields only the returned value.) -/
theorem C5_won_iff (d : Int) (h3 : 3 ≤ d) (_h9 : d ≤ 9) (b : Board) :
    (won d b = 1 ↔ ∀ row col, InGrid d row col →
      cell b row col = 0 ∨ cell b row col = row * d + col + 1) ∧
    (won d b = 0 ∨ won d b = 1) :=
  ⟨won_eq_one_iff d (by omega) b, won_zero_or_one d b⟩

/-- Witness of C5: d = 3 on the solved board. -/
theorem C5_won_iff_witness :
    (3 : Int) ≤ 3 ∧ (3 : Int) ≤ 9 ∧ won 3 (ofRows [[1, 2, 3], [4, 5, 6], [7, 8, 0]]) = 1 ∧
      (cell (ofRows [[1, 2, 3], [4, 5, 6], [7, 8, 0]]) 1 2 = 0 ∨
        cell (ofRows [[1, 2, 3], [4, 5, 6], [7, 8, 0]]) 1 2 = 1 * 3 + 2 + 1) :=
  ⟨by decide, by decide, by decide,
    (C5_won_iff 3 (by decide) (by decide) (ofRows [[1, 2, 3], [4, 5, 6], [7, 8, 0]])).1.1
      (by decide) 1 2 (by decide)⟩

/-- C6: for every d in [3,9], whatever the memory held before `init`, and for
every finite sequence of integer arguments, the cells of the board after `init`
and then `move` on each argument in turn are a permutation of `0 .. d*d-1` (the
multiset of the cell values is `{0, ..., d*d-1}`); in particular the value 0 and
every value of `1 .. d*d-1` occur in exactly one cell. -/
theorem C6_reachable_invariant (d : Int) (h3 : 3 ≤ d) (h9 : d ≤ 9) (b : Board)
    (tiles : List Int) :
    (Multiset.ofList (cells d (play d b tiles)) = Multiset.ofList (tileValues d)) ∧
    (cells d (play d b tiles)).count 0 = 1 ∧
    (∀ v, 1 ≤ v → v ≤ d * d - 1 → (cells d (play d b tiles)).count v = 1) := by
  have hp := play_isPermBoard d h3 h9 b tiles
  refine ⟨Multiset.coe_eq_coe.2 hp, count_of_isPermBoard hp (le_refl _) ?_,
    fun v hlo hhi => count_of_isPermBoard hp (by omega) hhi⟩
  nlinarith

/-- Witness of C6: d = 3, zero-initialised memory, the arguments 1, 8, 0, -2, 9, 2, 3. -/
theorem C6_reachable_invariant_witness :
    (3 : Int) ≤ 3 ∧ (3 : Int) ≤ 9 ∧
      (cells 3 (play 3 zeroBoard [1, 8, 0, -2, 9, 2, 3])).count 0 = 1 :=
  ⟨by decide, by decide,
    (C6_reachable_invariant 3 (by decide) (by decide) zeroBoard [1, 8, 0, -2, 9, 2, 3]).2.1⟩

/-- C7: for every d in [3,9], even or odd, and whatever the memory held before,
after `init` the cells of the grid are a permutation of `0 .. d*d-1` and the blank
is at `(d-1, d-1)`. -/
theorem C7_init_perm_blank_last (d : Int) (h3 : 3 ≤ d) (h9 : d ≤ 9) (b : Board) :
    Multiset.ofList (cells d (init d b)) = Multiset.ofList (tileValues d) ∧
    cell (init d b) (d - 1) (d - 1) = 0 := by
  refine ⟨Multiset.coe_eq_coe.2 (init_isPermBoard d h3 h9 b), ?_⟩
  rw [init_cell d h3 h9 b _ _ ⟨by omega, by omega, by omega, by omega⟩]
  unfold referenceLayout reversedLayout
  split_ifs <;> first | omega | ring

/-- Witness of C7 at the even dimension d = 4. -/
theorem C7_init_perm_blank_last_witness :
    (3 : Int) ≤ 4 ∧ (4 : Int) ≤ 9 ∧ cell (init 4 zeroBoard) (4 - 1) (4 - 1) = 0 :=
  ⟨by decide, by decide, (C7_init_perm_blank_last 4 (by decide) (by decide) zeroBoard).2⟩

/-- C8, as stated, fails at d = 4: after `init` it is not the case that
`board[3][1] == 2` and `board[3][2] == 1`. -/
theorem C8_counterexample :
    ¬ (cell (init 4 zeroBoard) 3 1 = 2 ∧ cell (init 4 zeroBoard) 3 2 = 1) := by
  decide

/-- C8 (amended): for every even d in [3,9], after `init` the cells `(d-1,d-3)` and
`(d-1,d-2)` hold 1 and 2 respectively; so do `board[3][1]` and `board[3][2]` for
d = 4. -/
theorem C8_init_even_swap (d : Int) (h3 : 3 ≤ d) (h9 : d ≤ 9) (heven : d % 2 = 0)
    (b : Board) :
    cell (init d b) (d - 1) (d - 3) = 1 ∧ cell (init d b) (d - 1) (d - 2) = 2 := by
  have hpar : (d * d) % 2 = 0 := by
    interval_cases d <;> first | rfl | (exact absurd heven (by decide))
  rw [init_cell d h3 h9 b _ _ ⟨by omega, by omega, by omega, by omega⟩,
    init_cell d h3 h9 b _ _ ⟨by omega, by omega, by omega, by omega⟩]
  unfold referenceLayout reversedLayout
  rw [if_pos hpar, if_pos ⟨rfl, rfl⟩, if_pos hpar, if_neg (by omega), if_pos ⟨rfl, rfl⟩]
  constructor <;> ring

/-- Witness of the amended C8 at d = 4. -/
theorem C8_init_even_swap_witness :
    (4 : Int) % 2 = 0 ∧ cell (init 4 zeroBoard) 3 1 = 1 ∧ cell (init 4 zeroBoard) 3 2 = 2 :=
  ⟨by decide, C8_init_even_swap 4 (by decide) (by decide) (by decide) zeroBoard⟩

/-- C9: for every d in [3,9] and whatever the memory held before, `won` returns 0
on the board produced by `init`. -/
theorem C9_init_not_won (d : Int) (h3 : 3 ≤ d) (h9 : d ≤ 9) (b : Board) :
    won d (init d b) = 0 := by
  rcases won_zero_or_one d (init d b) with h | h
  · exact h
  · exfalso
    have h00 := (won_eq_one_iff d (by omega) (init d b)).1 h 0 0
      ⟨le_refl _, by omega, le_refl _, by omega⟩
    rw [init_cell d h3 h9 b 0 0 ⟨le_refl _, by omega, le_refl _, by omega⟩] at h00
    unfold referenceLayout reversedLayout at h00
    interval_cases d <;> simp at h00

/-- Witness of C9 at d = 4. -/
theorem C9_init_not_won_witness :
    (3 : Int) ≤ 4 ∧ (4 : Int) ≤ 9 ∧ won 4 (init 4 zeroBoard) = 0 :=
  ⟨by decide, by decide, C9_init_not_won 4 (by decide) (by decide) zeroBoard⟩

/-- C10: for every d in [3,9], every board whose cells are a permutation of
`0 .. d*d-1` and every tile for which `move(tile)` returns 1, a second `move(tile)`
also returns 1 and leaves the memory equal to the one before the first call. -/
theorem C10_move_twice (d : Int) (h3 : 3 ≤ d) (h9 : d ≤ 9) (b : Board)
    (hp : IsPermBoard d b) (tile : Int) (hm : (move d b tile).2 = 1) :
    (move d (move d b tile).1 tile).2 = 1 ∧ (move d (move d b tile).1 tile).1 = b := by
  obtain ⟨hlo, hhi, tr, tc, br, bc, hgt, hgb, ht, hb, hadj⟩ :=
    (move_eq_one_iff (by omega) hp tile).1 hm
  have hne := adjacent_idx_ne hadj
  have hp1 : IsPermBoard d (slide b tr tc br bc) :=
    (slide_cells_perm d h9 b tr tc br bc hgt hgb hb).trans hp
  rw [move_adjacent_eq (by omega) hp hlo hhi hgt hgb ht hb hadj]
  show (move d (slide b tr tc br bc) tile).2 = 1 ∧ (move d (slide b tr tc br bc) tile).1 = b
  rw [move_adjacent_eq (by omega) hp1 hlo hhi hgb hgt
    ((cell_slide_blank b hne).trans ht) (cell_slide_tile b tr tc br bc) (adjacent_symm hadj)]
  exact ⟨rfl, slide_slide b hne hb⟩

/-- Witness of C10: d = 3, the board `[8,7,6],[5,4,3],[2,1,0]`, tile 3 above the blank. -/
theorem C10_move_twice_witness :
    IsPermBoard 3 (ofRows [[8, 7, 6], [5, 4, 3], [2, 1, 0]]) ∧
      (move 3 (ofRows [[8, 7, 6], [5, 4, 3], [2, 1, 0]]) 3).2 = 1 ∧
      (move 3 (move 3 (ofRows [[8, 7, 6], [5, 4, 3], [2, 1, 0]]) 3).1 3).2 = 1 ∧
      (move 3 (move 3 (ofRows [[8, 7, 6], [5, 4, 3], [2, 1, 0]]) 3).1 3).1
        = ofRows [[8, 7, 6], [5, 4, 3], [2, 1, 0]] :=
  ⟨by decide, by decide,
    C10_move_twice 3 (by decide) (by decide) (ofRows [[8, 7, 6], [5, 4, 3], [2, 1, 0]])
      (by decide) 3 (by decide)⟩

/-! ## `move` reads and writes the grid only -/

theorem gridEq_refl (d : Int) (b : Board) : GridEq d b b := fun _ _ _ => rfl

theorem gridEq_symm {d : Int} {b b1 : Board} (h : GridEq d b b1) : GridEq d b1 b :=
  fun i j hg => (h i j hg).symm

theorem gridEq_trans {d : Int} {b b1 b2 : Board} (h : GridEq d b b1) (h1 : GridEq d b1 b2) :
    GridEq d b b2 := fun i j hg => (h i j hg).trans (h1 i j hg)

theorem rows_eq_of_gridEq {d : Int} {b b1 : Board} (h : GridEq d b b1) :
    rows d b = rows d b1 := by
  unfold rows
  refine List.map_congr_left fun i hi => List.map_congr_left fun j hj => ?_
  rw [List.mem_range, Int.lt_toNat] at hi hj
  exact h _ _ ⟨by omega, hi, by omega, hj⟩

theorem gridEq_of_rows_eq {d : Int} {b b1 : Board} (h : rows d b = rows d b1) :
    GridEq d b b1 := by
  rintro i j ⟨hi0, hi, hj0, hj⟩
  lift i to ℕ using hi0
  lift j to ℕ using hj0
  unfold rows at h
  have hrow := List.map_inj_left.1 h i (List.mem_range.2 (Int.lt_toNat.2 hi))
  exact List.map_inj_left.1 hrow j (List.mem_range.2 (Int.lt_toNat.2 hj))

theorem cells_eq_of_gridEq {d : Int} {b b1 : Board} (h : GridEq d b b1) :
    cells d b = cells d b1 := by
  unfold cells
  rw [rows_eq_of_gridEq h]

/-- The search of `move` reads the grid only. -/
theorem findTile_congr {d : Int} {b b1 : Board} (h : GridEq d b b1) (tile : Int) :
    findTile d b tile = findTile d b1 tile := by
  unfold findTile
  refine List.foldl_ext _ _ _ fun s i hi => ?_
  unfold findRow
  refine List.foldl_ext _ _ _ fun s1 j hj => ?_
  rw [List.mem_range, Int.lt_toNat] at hi hj
  rw [h _ _ ⟨by omega, hi, by omega, hj⟩]

/-- The value of `won` depends on the grid only. -/
theorem won_congr {d : Int} (h0 : 0 ≤ d) {b b1 : Board} (h : GridEq d b b1) :
    won d b = won d b1 := by
  rcases won_zero_or_one d b with hb | hb <;> rcases won_zero_or_one d b1 with hb1 | hb1
  · rw [hb, hb1]
  · exfalso
    have := (won_eq_one_iff d h0 b).2
      (fun row col hg => by rw [h row col hg]; exact (won_eq_one_iff d h0 b1).1 hb1 row col hg)
    rw [hb] at this
    exact absurd this (by decide)
  · exfalso
    have := (won_eq_one_iff d h0 b1).2
      (fun row col hg => by rw [← h row col hg]; exact (won_eq_one_iff d h0 b).1 hb row col hg)
    rw [hb1] at this
    exact absurd this (by decide)
  · rw [hb, hb1]

theorem slide_gridEq {d : Int} {b b1 : Board} (h : GridEq d b b1) {r c r1 c1 : Int}
    (hg : InGrid d r c) : GridEq d (slide b r c r1 c1) (slide b1 r c r1 c1) := by
  intro i j hij
  simp only [slide, cell_store, h r c hg, h i j hij]

/-- Memory outside the cells named in a slide is not written. -/
theorem slide_frame (b : Board) (r c r1 c1 a : Int) (h : a ≠ idx r c) (h1 : a ≠ idx r1 c1) :
    slide b r c r1 c1 a = b a := by
  unfold slide store
  rw [if_neg h, if_neg h1]

/-- The function `move` is its variant with the neighbours in the order right, left,
down, up. -/
theorem move_eq_moveWith (d : Int) (b : Board) (tile : Int) :
    move d b tile = moveWith sourceOrder d b tile := rfl

theorem dir_inGrid {d r c : Int} (hg : InGrid d r c) (dir : Dir)
    (hb : dir.inBounds d r c) : InGrid d (dir.row r) (dir.col c) := by
  obtain ⟨hr0, hrd, hc0, hcd⟩ := hg
  cases dir <;> simp only [Dir.inBounds, Dir.row, Dir.col] at hb ⊢ <;>
    exact ⟨by omega, by omega, by omega, by omega⟩

theorem dir_adjacent (r c : Int) (dir : Dir) : Adjacent r c (dir.row r) (dir.col c) := by
  cases dir <;> simp [Adjacent, Dir.row, Dir.col]

theorem tryDirs_congr {d : Int} {b b1 : Board} (h : GridEq d b b1) {r c : Int}
    (hg : InGrid d r c) (order : List Dir) :
    (tryDirs d b r c order).2 = (tryDirs d b1 r c order).2 ∧
      GridEq d (tryDirs d b r c order).1 (tryDirs d b1 r c order).1 := by
  induction order with
  | nil => exact ⟨rfl, h⟩
  | cons dir rest ih =>
    have e : (cell b (dir.row r) (dir.col c) = 0 ∧ dir.inBounds d r c) ↔
        (cell b1 (dir.row r) (dir.col c) = 0 ∧ dir.inBounds d r c) :=
      and_congr_left fun hb => by rw [h _ _ (dir_inGrid hg dir hb)]
    unfold tryDirs
    by_cases hc : cell b (dir.row r) (dir.col c) = 0 ∧ dir.inBounds d r c
    · rw [if_pos hc, if_pos (e.1 hc)]
      exact ⟨rfl, slide_gridEq h hg⟩
    · rw [if_neg hc, if_neg (fun x => hc (e.2 x))]
      exact ih

/-- The return value and the new grid of the variants of `move` are determined by the
old grid. -/
theorem moveWith_congr (order : List Dir) {d : Int} (h1 : 1 ≤ d) {b b1 : Board}
    (h : GridEq d b b1) (tile : Int) :
    (moveWith order d b tile).2 = (moveWith order d b1 tile).2 ∧
      GridEq d (moveWith order d b tile).1 (moveWith order d b1 tile).1 := by
  unfold moveWith
  simp only []
  by_cases hr : tile > d * d - 1 ∨ tile < 1
  · rw [if_pos hr, if_pos hr]
    exact ⟨rfl, h⟩
  · rw [if_neg hr, if_neg hr, ← findTile_congr h tile]
    exact tryDirs_congr h (findTile_inGrid d h1 b tile) order

/-- The return value and the new grid of `move` are determined by the old grid. -/
theorem move_congr {d : Int} (h1 : 1 ≤ d) {b b1 : Board} (h : GridEq d b b1) (tile : Int) :
    (move d b tile).2 = (move d b1 tile).2 ∧ GridEq d (move d b tile).1 (move d b1 tile).1 :=
  moveWith_congr sourceOrder h1 h tile

/-- Every write of `move` goes to a cell of the grid. -/
theorem move_frame_outside (d : Int) (h1 : 1 ≤ d) (b : Board) (tile : Int) (a : Int)
    (ha : ∀ i j, InGrid d i j → a ≠ idx i j) : (move d b tile).1 a = b a := by
  by_cases hr : tile < 1 ∨ tile > d * d - 1
  · rw [move_out_of_range d b tile hr]
  · rcases move_in_range d h1 b tile (by omega) (by omega) with ⟨h, _⟩ | ⟨r1, c1, hg1, _, _, h⟩
    · rw [h]
    · rw [h]
      exact slide_frame b _ _ r1 c1 a (ha _ _ (findTile_inGrid d h1 b tile)) (ha _ _ hg1)

theorem playFrom_congr {d : Int} (h1 : 1 ≤ d) (tiles : List Int) :
    ∀ {b b1 : Board}, GridEq d b b1 → GridEq d (playFrom d b tiles) (playFrom d b1 tiles) := by
  induction tiles with
  | nil => intro b b1 h; exact h
  | cons t ts ih =>
    intro b b1 h
    exact ih (move_congr h1 h t).2

theorem play_eq_playFrom (d : Int) (b : Board) (tiles : List Int) :
    play d b tiles = playFrom d (init d b) tiles := rfl

theorem init_gridEq (d : Int) (h3 : 3 ≤ d) (h9 : d ≤ 9) (b b1 : Board) :
    GridEq d (init d b) (init d b1) := fun i j hg => by
  rw [init_cell d h3 h9 b i j hg, init_cell d h3 h9 b1 i j hg]

/-! ## The order of the neighbour tests -/

theorem tryDirs_spec (d : Int) (b : Board) (r c : Int) (order : List Dir) :
    (tryDirs d b r c order = (b, 0) ∧
      ∀ dir ∈ order, ¬ (cell b (dir.row r) (dir.col c) = 0 ∧ dir.inBounds d r c)) ∨
    (∃ dir ∈ order, (cell b (dir.row r) (dir.col c) = 0 ∧ dir.inBounds d r c) ∧
      tryDirs d b r c order = (slide b r c (dir.row r) (dir.col c), 1)) := by
  induction order with
  | nil => left; exact ⟨rfl, fun _ h => absurd h (List.not_mem_nil _)⟩
  | cons dir rest ih =>
    unfold tryDirs
    by_cases hc : cell b (dir.row r) (dir.col c) = 0 ∧ dir.inBounds d r c
    · rw [if_pos hc]
      exact Or.inr ⟨dir, List.mem_cons_self _ _, hc, rfl⟩
    · rw [if_neg hc]
      rcases ih with ⟨h1, h2⟩ | ⟨dir1, hm, h1, h2⟩
      · left
        refine ⟨h1, fun x hx => ?_⟩
        rcases List.mem_cons.1 hx with rfl | hx
        · exact hc
        · exact h2 x hx
      · exact Or.inr ⟨dir1, List.mem_cons_of_mem _ hm, h1, h2⟩

/-- On a permutation board two lists of directions with the same members give the
same outcome. -/
theorem tryDirs_order_irrelevant {d : Int} {b : Board} (hp : IsPermBoard d b) {r c : Int}
    (hg : InGrid d r c) (o1 o2 : List Dir) (hm : ∀ dir, dir ∈ o1 ↔ dir ∈ o2) :
    tryDirs d b r c o1 = tryDirs d b r c o2 := by
  rcases tryDirs_spec d b r c o1 with ⟨e1, n1⟩ | ⟨d1, m1, ⟨z1, b1⟩, e1⟩ <;>
    rcases tryDirs_spec d b r c o2 with ⟨e2, n2⟩ | ⟨d2, m2, ⟨z2, b2⟩, e2⟩
  · rw [e1, e2]
  · exact absurd ⟨z2, b2⟩ (n1 d2 ((hm d2).2 m2))
  · exact absurd ⟨z1, b1⟩ (n2 d1 ((hm d1).1 m1))
  · have := hp.inj (dir_inGrid hg d1 b1) (dir_inGrid hg d2 b2) (z1.trans z2.symm)
    rw [e1, e2, this.1, this.2]

/-- On a permutation board every order of the four neighbour tests gives `move`. -/
theorem moveWith_eq_move {d : Int} (h1 : 1 ≤ d) {b : Board} (hp : IsPermBoard d b)
    (order : List Dir) (ho : List.Perm order sourceOrder) (tile : Int) :
    moveWith order d b tile = move d b tile := by
  rw [move_eq_moveWith]
  unfold moveWith
  simp only []
  by_cases hr : tile > d * d - 1 ∨ tile < 1
  · rw [if_pos hr, if_pos hr]
  · rw [if_neg hr, if_neg hr]
    exact tryDirs_order_irrelevant hp (findTile_inGrid d h1 b tile) _ _
      (fun dir => List.Perm.mem_iff ho)

/-! ## Won boards among the permutation boards -/

theorem IsPermBoard.cell_range {d : Int} {b : Board} (hp : IsPermBoard d b) {i j : Int}
    (hg : InGrid d i j) : 0 ≤ cell b i j ∧ cell b i j < d * d := by
  obtain ⟨hi0, hi, hj0, hj⟩ := hg
  lift i to ℕ using hi0
  lift j to ℕ using hj0
  have hm : cell b (i : Int) (j : Int) ∈ cells d b := by
    rw [cells_eq_map, List.mem_map]
    exact ⟨(i, j), (mem_positions d _).2 ⟨by simp, hi, by simp, hj⟩, rfl⟩
  exact (mem_tileValues d _).1 ((List.Perm.mem_iff hp).1 hm)

/-- A permutation board on which `won` returns 1 holds the solved layout. -/
theorem won_perm_layout {d : Int} (h1 : 1 ≤ d) {b : Board} (hp : IsPermBoard d b)
    (hw : won d b = 1) : ∀ i j, InGrid d i j → cell b i j = solvedLayout d i j := by
  have hall := (won_eq_one_iff d (by omega) b).1 hw
  have hlast : InGrid d (d - 1) (d - 1) := ⟨by omega, by omega, by omega, by omega⟩
  have hz : cell b (d - 1) (d - 1) = 0 := by
    rcases hall _ _ hlast with h | h
    · exact h
    · exfalso
      have := (hp.cell_range hlast).2
      rw [h] at this
      nlinarith
  intro i j hg
  unfold solvedLayout
  by_cases hij : i = d - 1 ∧ j = d - 1
  · rw [if_pos hij, hij.1, hij.2, hz]
  · rw [if_neg hij]
    rcases hall i j hg with h | h
    · exact absurd (hp.inj hg hlast (h.trans hz.symm)) hij
    · exact h

/-- A board that holds the solved layout is won, whatever else the memory holds. -/
theorem won_of_layout {d : Int} (h0 : 0 ≤ d) {b : Board}
    (h : ∀ i j, InGrid d i j → cell b i j = solvedLayout d i j) : won d b = 1 := by
  refine (won_eq_one_iff d h0 b).2 fun row col hg => ?_
  rw [h row col hg]
  unfold solvedLayout
  by_cases hij : row = d - 1 ∧ col = d - 1
  · rw [if_pos hij]; exact Or.inl rfl
  · rw [if_neg hij]; exact Or.inr rfl

/-! ## Soundness of the solution checker -/

theorem testBit_127 (i : Nat) : Nat.testBit 127 i = decide (i < 7) := by
  have h : (127 : Nat) = 2 ^ 7 - 1 := by norm_num
  rw [h, Nat.testBit_two_pow_sub_one]

theorem testBit_fld (s k i : Nat) :
    (fld s k).testBit i = (decide (i < 7) && s.testBit (7 * k + i)) := by
  unfold fld
  rw [Nat.testBit_and, Nat.testBit_shiftRight, testBit_127, Bool.and_comm]

theorem testBit_small {t : Nat} (ht : t < 128) {i : Nat} (hi : 7 ≤ i) :
    t.testBit i = false := by
  apply Nat.testBit_lt_two_pow
  calc t < 128 := ht
    _ = 2 ^ 7 := by norm_num
    _ ≤ 2 ^ i := Nat.pow_le_pow_right (by norm_num) hi

theorem fld_flipFld_same (s k t : Nat) (ht : t < 128) :
    fld (flipFld s k t) k = fld s k ^^^ t := by
  apply Nat.eq_of_testBit_eq
  intro i
  rw [testBit_fld, Nat.testBit_xor, testBit_fld]
  unfold flipFld
  rw [Nat.testBit_xor, Nat.testBit_shiftLeft]
  by_cases hi : i < 7
  · simp [hi]
  · simp [hi, testBit_small ht (Nat.le_of_not_lt hi)]

theorem fld_flipFld_ne (s k j t : Nat) (ht : t < 128) (hjk : j ≠ k) :
    fld (flipFld s k t) j = fld s j := by
  apply Nat.eq_of_testBit_eq
  intro i
  rw [testBit_fld, testBit_fld]
  unfold flipFld
  rw [Nat.testBit_xor, Nat.testBit_shiftLeft]
  by_cases hi : i < 7
  · by_cases hle : 7 * k ≤ 7 * j + i
    · have h7 : 7 ≤ 7 * j + i - 7 * k := by omega
      simp [hi, hle, testBit_small ht h7]
    · simp [hi, hle]
  · simp [hi]

theorem forceNat_eq {α : Type} (n : Nat) (k : Nat → α) : forceNat n k = k n := by
  cases n <;> rfl

theorem okMove_spec {d s t tr tc br bc : Nat} (h : okMove d s t tr tc br bc = true) :
    tr < d ∧ tc < d ∧
      ((tr = br ∧ (tc = bc + 1 ∨ bc = tc + 1)) ∨ (tc = bc ∧ (tr = br + 1 ∨ br = tr + 1))) ∧
      fld s (9 * tr + tc) = t ∧ 1 ≤ t ∧ t + 1 ≤ d * d := by
  unfold okMove at h
  simp only [Bool.and_eq_true, Bool.or_eq_true, Nat.ble_eq, Nat.beq_eq] at h
  obtain ⟨⟨⟨⟨⟨h1, h2⟩, h3⟩, h4⟩, h5⟩, h6⟩ := h
  exact ⟨by omega, by omega, h3, h4, h5, h6⟩

/-- One accepted step of the checker is a successful `move` on a board that the code
describes, and the new code describes the new board. -/
theorem checkSol_step {d : Nat} (h3 : 3 ≤ d) (h9 : d ≤ 9) {b : Board}
    (hp : IsPermBoard d b) {s br bc t tr tc : Nat}
    (hinv : ∀ r c : Nat, r < d → c < d → cell b r c = (fld s (9 * r + c) : Nat))
    (hbr : br < d) (hbc : bc < d) (hz : cell b br bc = 0)
    (hok : okMove d s t tr tc br bc = true) :
    move d b t = (slide b tr tc br bc, 1) ∧
      (∀ r c : Nat, r < d → c < d → cell (slide b tr tc br bc) r c
        = (fld (flipFld (flipFld s (9 * tr + tc) t) (9 * br + bc) t) (9 * r + c) : Nat)) := by
  obtain ⟨htr, htc, hadj, hfld, ht1, ht2⟩ := okMove_spec hok
  have hdd : d * d ≤ 81 := by nlinarith
  have ht128 : t < 128 := by omega
  have hcell : cell b tr tc = (t : Int) := by rw [hinv tr tc htr htc, hfld]
  have hzf : fld s (9 * br + bc) = 0 := by
    have := hinv br bc hbr hbc
    rw [hz] at this
    exact_mod_cast this.symm
  have hgt : InGrid d (tr : Int) (tc : Int) := ⟨by omega, by omega, by omega, by omega⟩
  have hgb : InGrid d (br : Int) (bc : Int) := ⟨by omega, by omega, by omega, by omega⟩
  have hA : Adjacent (tr : Int) tc br bc := by
    unfold Adjacent
    omega
  have hhi : (t : Int) ≤ (d : Int) * d - 1 := by
    have : ((t + 1 : Nat) : Int) ≤ ((d * d : Nat) : Int) := by exact_mod_cast ht2
    push_cast at this
    omega
  refine ⟨move_adjacent_eq (by omega) hp (by omega) hhi hgt hgb hcell hz hA, ?_⟩
  intro r c hr hc
  have hkt : 9 * tr + tc ≠ 9 * br + bc := by omega
  simp only [slide, cell_store]
  by_cases h1 : r = tr ∧ c = tc
  · obtain ⟨rfl, rfl⟩ := h1
    rw [if_pos rfl, fld_flipFld_ne _ _ _ _ ht128 hkt, fld_flipFld_same _ _ _ ht128, hfld,
      Nat.xor_self]
    rfl
  · have hne1 : idx (r : Int) c ≠ idx (tr : Int) tc := by
      unfold idx DIM_MAX; omega
    rw [if_neg hne1]
    by_cases h2 : r = br ∧ c = bc
    · obtain ⟨rfl, rfl⟩ := h2
      rw [if_pos rfl, fld_flipFld_same _ _ _ ht128,
        fld_flipFld_ne _ _ _ _ ht128 (Ne.symm hkt), hzf, Nat.zero_xor, hcell]
    · have hne2 : idx (r : Int) c ≠ idx (br : Int) bc := by
        unfold idx DIM_MAX; omega
      rw [if_neg hne2, fld_flipFld_ne _ _ _ _ ht128 (by omega),
        fld_flipFld_ne _ _ _ _ ht128 (by omega)]
      exact hinv r c hr hc

/-- A list of tiles that the checker accepts from a code of the board leads `move`
from that board to a board on which `won` returns 1. -/
theorem checkSol_sound {d : Nat} (h3 : 3 ≤ d) (h9 : d ≤ 9) (ts : List Nat) :
    ∀ (s br bc : Nat) (b : Board), IsPermBoard d b →
      (∀ r c : Nat, r < d → c < d → cell b r c = (fld s (9 * r + c) : Nat)) →
      br < d → bc < d → cell b br bc = 0 → checkSol d ts s br bc = true →
      won d (playFrom d b (ts.map Int.ofNat)) = 1 := by
  induction ts with
  | nil =>
    intro s br bc b _ hinv _ _ _ hchk
    unfold checkSol at hchk
    have hall := of_decide_eq_true hchk
    refine (won_eq_one_iff d (by omega) b).2 fun row col hg => ?_
    obtain ⟨hr0, hr, hc0, hc⟩ := hg
    lift row to ℕ using hr0
    lift col to ℕ using hc0
    rw [hinv row col (by omega) (by omega)]
    rcases hall row (by omega) col (by omega) with h | h
    · left; rw [h]; rfl
    · right; rw [h]; push_cast; ring
  | cons t ts ih =>
    intro s br bc b hp hinv hbr hbc hz hchk
    unfold checkSol at hchk
    simp only [forceNat_eq, Bool.and_eq_true] at hchk
    obtain ⟨hok, hrest⟩ := hchk
    obtain ⟨hmove, hinv1⟩ := checkSol_step h3 h9 hp hinv hbr hbc hz hok
    obtain ⟨htr, htc, _⟩ := okMove_spec hok
    have hp1 : IsPermBoard d (slide b (findNbr s br bc t).1 (findNbr s br bc t).2 br bc) := by
      have := move_isPermBoard d (by omega) (by omega) b t hp
      rwa [hmove] at this
    have := ih _ _ _ _ hp1 hinv1 htr htc (cell_slide_tile b _ _ _ _) hrest
    simp only [List.map_cons, playFrom, List.foldl_cons]
    have hm : move (d : Int) b (Int.ofNat t) = _ := hmove
    rw [hm]
    exact this

/-- Tiles accepted by `solves` lead from the board of `init` to a won board. -/
theorem solves_sound {d : Nat} (h3 : 3 ≤ d) (h9 : d ≤ 9) (ts : List Nat)
    (h : solves d ts = true) (b : Board) :
    won d (play d b (ts.map Int.ofNat)) = 1 := by
  unfold solves at h
  simp only [forceNat_eq, Bool.and_eq_true] at h
  obtain ⟨hcode, hchk⟩ := h
  have hcode := of_decide_eq_true hcode
  have hd : Int.toNat (d : Int) = d := Int.toNat_ofNat d
  refine checkSol_sound h3 h9 ts _ (d - 1) (d - 1) (init d b)
    (init_isPermBoard d (by omega) (by omega) b) ?_ (by omega) (by omega) ?_ hchk
  · intro r c hr hc
    rw [init_cell d (by omega) (by omega) b r c ⟨by omega, by omega, by omega, by omega⟩]
    exact hcode r hr c hc
  · have h1 : ((d - 1 : Nat) : Int) = (d : Int) - 1 := by omega
    rw [h1, init_cell d (by omega) (by omega) b _ _ ⟨by omega, by omega, by omega, by omega⟩]
    unfold referenceLayout reversedLayout
    split_ifs <;> first | omega | ring

/-! ## The boards of `init` are solvable -/

theorem solves_solution3 : solves 3 solution3 = true := by decide!

theorem solves_solution4 : solves 4 solution4 = true := by decide!

theorem solves_solution5 : solves 5 solution5 = true := by decide!

theorem solves_solution6 : solves 6 solution6 = true := by decide!

theorem solves_solution7 : solves 7 solution7 = true := by decide!

theorem solves_solution8 : solves 8 solution8 = true := by decide!

theorem solves_solution9 : solves 9 solution9 = true := by decide!

/-- From the board of `init` some sequence of calls of `move` reaches a board on which
`won` returns 1. -/
theorem init_solvable (d : Int) (h3 : 3 ≤ d) (h9 : d ≤ 9) (b : Board) :
    ∃ tiles : List Int, won d (play d b tiles) = 1 := by
  interval_cases d
  · exact ⟨_, solves_sound (d := 3) (by decide) (by decide) _ solves_solution3 b⟩
  · exact ⟨_, solves_sound (d := 4) (by decide) (by decide) _ solves_solution4 b⟩
  · exact ⟨_, solves_sound (d := 5) (by decide) (by decide) _ solves_solution5 b⟩
  · exact ⟨_, solves_sound (d := 6) (by decide) (by decide) _ solves_solution6 b⟩
  · exact ⟨_, solves_sound (d := 7) (by decide) (by decide) _ solves_solution7 b⟩
  · exact ⟨_, solves_sound (d := 8) (by decide) (by decide) _ solves_solution8 b⟩
  · exact ⟨_, solves_sound (d := 9) (by decide) (by decide) _ solves_solution9 b⟩

/-! ## Inversions and the exchange of two entries -/

theorem inversions_cons (x : Int) (xs : List Int) :
    inversions (x :: xs) = xs.countP (fun y => decide (y < x)) + inversions xs := rfl

/-- The pairs of an entry of `m` and a later, smaller entry of `l`. -/
theorem inversions_append (m l : List Int) :
    inversions (m ++ l)
      = inversions m + inversions l + (m.map fun z => l.countP (fun y => decide (y < z))).sum := by
  induction m with
  | nil => simp [inversions]
  | cons a m ih =>
    rw [List.cons_append, inversions_cons, inversions_cons, List.countP_append, ih,
      List.map_cons, List.sum_cons]
    omega

theorem countP_cons_lt (y z : Int) (l : List Int) :
    (y :: l).countP (fun w => decide (w < z))
      = l.countP (fun w => decide (w < z)) + if y < z then 1 else 0 := by
  rw [List.countP_cons]
  by_cases h : y < z <;> simp [h]

theorem countP_cons_gt (a y : Int) (m : List Int) :
    (a :: m).countP (fun z => decide (y < z))
      = m.countP (fun z => decide (y < z)) + if y < a then 1 else 0 := by
  rw [List.countP_cons]
  by_cases h : y < a <;> simp [h]

theorem sum_countP_cons (m l : List Int) (y : Int) :
    (m.map fun z => (y :: l).countP (fun w => decide (w < z))).sum
      = m.countP (fun z => decide (y < z))
        + (m.map fun z => l.countP (fun w => decide (w < z))).sum := by
  induction m with
  | nil => simp
  | cons a m ih =>
    rw [List.map_cons, List.sum_cons, ih, countP_cons_lt, countP_cons_gt, List.map_cons,
      List.sum_cons]
    omega

theorem countP_lt_add_gt (m : List Int) (x : Int) (h : ∀ z ∈ m, z ≠ x) :
    m.countP (fun z => decide (z < x)) + m.countP (fun z => decide (x < z)) = m.length := by
  induction m with
  | nil => simp
  | cons a m ih =>
    have ha : a ≠ x := h a (List.mem_cons_self _ _)
    have ih1 := ih fun z hz => h z (List.mem_cons_of_mem _ hz)
    rw [countP_cons_lt, countP_cons_gt, List.length_cons]
    rcases lt_or_gt_of_ne ha with h1 | h1
    · have h2 : ¬ x < a := not_lt.2 (le_of_lt h1)
      rw [if_pos h1, if_neg h2]; omega
    · have h2 : ¬ a < x := not_lt.2 (le_of_lt h1)
      rw [if_neg h2, if_pos h1]; omega

/-- Exchanging two different entries of a sequence, none of them repeated in between,
changes the number of inversions by an odd number. -/
theorem inversions_exchange (a m l : List Int) (x y : Int) (hxy : x ≠ y)
    (hm : ∀ z ∈ m, z ≠ x ∧ z ≠ y) :
    (inversions (a ++ x :: (m ++ y :: l)) + inversions (a ++ y :: (m ++ x :: l))) % 2 = 1 := by
  induction a with
  | nil =>
    have h1 := countP_lt_add_gt m x fun z hz => (hm z hz).1
    have h2 := countP_lt_add_gt m y fun z hz => (hm z hz).2
    rw [List.nil_append, List.nil_append, inversions_cons, inversions_cons,
      inversions_append, inversions_append, inversions_cons, inversions_cons,
      List.countP_append, List.countP_append, countP_cons_lt, countP_cons_lt,
      sum_countP_cons, sum_countP_cons]
    rcases lt_or_gt_of_ne hxy with h | h
    · have h' : ¬ y < x := not_lt.2 (le_of_lt h)
      rw [if_neg h', if_pos h]
      omega
    · have h' : ¬ x < y := not_lt.2 (le_of_lt h)
      rw [if_pos h, if_neg h']
      omega
  | cons b a ih =>
    have hperm : List.Perm (a ++ x :: (m ++ y :: l)) (a ++ y :: (m ++ x :: l)) := by
      refine List.Perm.append_left a ?_
      have e1 : x :: (m ++ y :: l) = ([x] ++ m ++ [y]) ++ l := by simp
      have e2 : y :: (m ++ x :: l) = ([y] ++ (m ++ [x])) ++ l := by simp
      rw [e1, e2]
      refine List.Perm.append_right l ?_
      have h1 : List.Perm (m ++ [y]) (y :: m) := List.perm_append_singleton y m
      have h2 : List.Perm (m ++ [x]) (x :: m) := List.perm_append_singleton x m
      rw [List.append_assoc]
      exact (h1.cons x).trans ((List.Perm.swap y x m).trans (h2.symm.cons y))
    rw [List.cons_append, List.cons_append, inversions_cons, inversions_cons,
      hperm.countP_eq]
    omega

/-! ## The parity of a board is kept by `move` -/

theorem map_exchange {α β : Type} (f g : α → β) (p q : α) (A M L : List α)
    (hnd : (A ++ p :: (M ++ q :: L)).Nodup) (hp : g p = f q) (hq : g q = f p)
    (hrest : ∀ z ∈ A ++ p :: (M ++ q :: L), z ≠ p → z ≠ q → g z = f z) :
    (A ++ p :: (M ++ q :: L)).map g
      = A.map f ++ f q :: (M.map f ++ f p :: L.map f) := by
  have hmem : ∀ z, z ∈ A ∨ z ∈ M ∨ z ∈ L → z ∈ A ++ p :: (M ++ q :: L) := by
    intro z hz
    simp only [List.mem_append, List.mem_cons]
    tauto
  have hpq : ∀ z, z ∈ A ∨ z ∈ M ∨ z ∈ L → z ≠ p ∧ z ≠ q := by
    intro z hz
    have h1 := List.nodup_append.1 hnd
    have h2 := List.nodup_cons.1 h1.2.1
    have h3 := List.nodup_append.1 h2.2
    have h4 := List.nodup_cons.1 h3.2.1
    have hdisj := h1.2.2
    constructor
    · rintro rfl
      rcases hz with hz | hz | hz
      · exact hdisj hz (List.mem_cons_self _ _)
      · exact h2.1 (List.mem_append_left _ hz)
      · exact h2.1 (List.mem_append_right _ (List.mem_cons_of_mem _ hz))
    · rintro rfl
      rcases hz with hz | hz | hz
      · exact hdisj hz
          (List.mem_cons_of_mem _ (List.mem_append_right _ (List.mem_cons_self _ _)))
      · exact h3.2.2 hz (List.mem_cons_self _ _)
      · exact h4.1 hz
  have hcongr : ∀ S : List α, (∀ z ∈ S, z ∈ A ∨ z ∈ M ∨ z ∈ L) → S.map g = S.map f := by
    intro S hS
    exact List.map_congr_left fun z hz =>
      hrest z (hmem z (hS z hz)) (hpq z (hS z hz)).1 (hpq z (hS z hz)).2
  rw [List.map_append, List.map_cons, List.map_append, List.map_cons, hp, hq,
    hcongr A (fun z hz => Or.inl hz), hcongr M (fun z hz => Or.inr (Or.inl hz)),
    hcongr L (fun z hz => Or.inr (Or.inr hz))]

/-- On a permutation board a slide changes the number of inversions of the cells by an
odd number. -/
theorem inversions_slide {d : Int} (h9 : d ≤ 9) {b : Board} (hp : IsPermBoard d b)
    {r c r1 c1 : Int} (hg : InGrid d r c) (hg1 : InGrid d r1 c1)
    (hne : idx r1 c1 ≠ idx r c) (hz : cell b r1 c1 = 0) :
    (inversions (cells d b) + inversions (cells d (slide b r c r1 c1))) % 2 = 1 := by
  obtain ⟨hr0, hr, hc0, hc⟩ := hg
  obtain ⟨hr10, hr1, hc10, hc1⟩ := hg1
  lift r to ℕ using hr0
  lift c to ℕ using hc0
  lift r1 to ℕ using hr10
  lift c1 to ℕ using hc10
  have hg : InGrid d (r : Int) (c : Int) := ⟨by simp, hr, by simp, hc⟩
  have hg1 : InGrid d (r1 : Int) (c1 : Int) := ⟨by simp, hr1, by simp, hc1⟩
  have hP : (r, c) ∈ positions d := (mem_positions d _).2 hg
  have hQ : (r1, c1) ∈ positions d := (mem_positions d _).2 hg1
  have hPQ : (r, c) ≠ (r1, c1) := by
    intro h
    rw [Prod.mk.injEq] at h
    exact hne (by rw [h.1, h.2])
  have hnd := nodup_positions d
  -- the values of a slid board
  have e1 : cell (slide b r c r1 c1) (r : Int) (c : Int) = cell b (r1 : Int) (c1 : Int) := by
    rw [cell_slide_tile, hz]
  have e2 : cell (slide b r c r1 c1) (r1 : Int) (c1 : Int) = cell b (r : Int) (c : Int) :=
    cell_slide_blank b hne
  have e3 : ∀ z ∈ positions d, z ≠ (r, c) → z ≠ (r1, c1) →
      cell (slide b r c r1 c1) (z.1 : Int) (z.2 : Int) = cell b (z.1 : Int) (z.2 : Int) := by
    intro z hz1 hzp hzq
    obtain ⟨_, hx1, _, hx2⟩ := (mem_positions d z).1 hz1
    have n1 : idx (z.1 : Int) z.2 ≠ idx (r : Int) c := by
      intro h
      have := (idx_inj (by omega) (by omega) (by omega) (by omega)).1 h
      exact hzp (Prod.ext (by simpa using this.1) (by simpa using this.2))
    have n2 : idx (z.1 : Int) z.2 ≠ idx (r1 : Int) c1 := by
      intro h
      have := (idx_inj (by omega) (by omega) (by omega) (by omega)).1 h
      exact hzq (Prod.ext (by simpa using this.1) (by simpa using this.2))
    simp only [slide, cell_store, if_neg n1, if_neg n2]
  -- values at different positions differ
  have hinj : ∀ z ∈ positions d, ∀ w ∈ positions d, z ≠ w →
      cell b (z.1 : Int) (z.2 : Int) ≠ cell b (w.1 : Int) (w.2 : Int) := by
    intro z hz1 w hw1 hzw he
    have := hp.inj ((mem_positions d z).1 hz1) ((mem_positions d w).1 hw1) he
    exact hzw (Prod.ext (by exact_mod_cast this.1) (by exact_mod_cast this.2))
  rw [cells_eq_map, cells_eq_map]
  obtain ⟨A, B, hAB⟩ := List.append_of_mem hP
  have hQ' : (r1, c1) ∈ A ∨ (r1, c1) ∈ B := by
    rw [hAB, List.mem_append, List.mem_cons] at hQ
    rcases hQ with h | h | h
    · exact Or.inl h
    · exact absurd h.symm hPQ
    · exact Or.inr h
  rcases hQ' with hQA | hQB
  · obtain ⟨A0, M, hA⟩ := List.append_of_mem hQA
    have hdec : positions d = A0 ++ (r1, c1) :: (M ++ (r, c) :: B) := by
      rw [hAB, hA]; simp
    have hmemM : ∀ z ∈ M, z ∈ positions d := fun z hz => by
      rw [hdec]; simp [hz]
    have hndM : ∀ z ∈ M, z ≠ (r, c) ∧ z ≠ (r1, c1) := by
      intro z hz
      rw [hdec] at hnd
      have h1 := (List.nodup_append.1 hnd).2.1
      have h2 := List.nodup_cons.1 h1
      have h3 := List.nodup_append.1 h2.2
      constructor
      · rintro rfl; exact h3.2.2 hz (List.mem_cons_self _ _)
      · rintro rfl; exact h2.1 (List.mem_append_left _ hz)
    have hm1 := map_exchange (fun z : Nat × Nat => cell b (z.1 : Int) (z.2 : Int))
      (fun z : Nat × Nat => cell (slide b r c r1 c1) (z.1 : Int) (z.2 : Int))
      (r1, c1) (r, c) A0 M B (hdec ▸ hnd) e2 e1
      (fun z hz h1 h2 => e3 z (hdec ▸ hz) h2 h1)
    rw [← hdec] at hm1
    rw [hm1]
    nth_rewrite 1 [hdec]
    rw [List.map_append, List.map_cons, List.map_append, List.map_cons]
    refine inversions_exchange _ _ _ _ _ (hinj _ hQ _ hP (Ne.symm hPQ)) ?_
    intro v hv
    obtain ⟨z, hz1, rfl⟩ := List.mem_map.1 hv
    exact ⟨hinj z (hmemM z hz1) _ hQ (hndM z hz1).2, hinj z (hmemM z hz1) _ hP (hndM z hz1).1⟩
  · obtain ⟨M, L, hB⟩ := List.append_of_mem hQB
    have hdec : positions d = A ++ (r, c) :: (M ++ (r1, c1) :: L) := by
      rw [hAB, hB]
    have hmemM : ∀ z ∈ M, z ∈ positions d := fun z hz => by
      rw [hdec]; simp [hz]
    have hndM : ∀ z ∈ M, z ≠ (r, c) ∧ z ≠ (r1, c1) := by
      intro z hz
      rw [hdec] at hnd
      have h1 := (List.nodup_append.1 hnd).2.1
      have h2 := List.nodup_cons.1 h1
      have h3 := List.nodup_append.1 h2.2
      constructor
      · rintro rfl; exact h2.1 (List.mem_append_left _ hz)
      · rintro rfl; exact h3.2.2 hz (List.mem_cons_self _ _)
    have hm1 := map_exchange (fun z : Nat × Nat => cell b (z.1 : Int) (z.2 : Int))
      (fun z : Nat × Nat => cell (slide b r c r1 c1) (z.1 : Int) (z.2 : Int))
      (r, c) (r1, c1) A M L (hdec ▸ hnd) e1 e2
      (fun z hz h1 h2 => e3 z (hdec ▸ hz) h1 h2)
    rw [← hdec] at hm1
    rw [hm1]
    nth_rewrite 1 [hdec]
    rw [List.map_append, List.map_cons, List.map_append, List.map_cons]
    refine inversions_exchange _ _ _ _ _ (hinj _ hP _ hQ hPQ) ?_
    intro v hv
    obtain ⟨z, hz1, rfl⟩ := List.mem_map.1 hv
    exact ⟨hinj z (hmemM z hz1) _ hP (hndM z hz1).1, hinj z (hmemM z hz1) _ hQ (hndM z hz1).2⟩

/-- On a permutation board a slide of the tile next to the blank keeps the parity. -/
theorem parity_slide {d : Int} (h1 : 1 ≤ d) (h9 : d ≤ 9) {b : Board} (hp : IsPermBoard d b)
    {tr tc br bc : Int} (hgt : InGrid d tr tc) (hgb : InGrid d br bc)
    (hb : cell b br bc = 0) (hadj : Adjacent tr tc br bc) :
    parity d (slide b tr tc br bc) = parity d b := by
  have hne := adjacent_idx_ne hadj
  have hp1 : IsPermBoard d (slide b tr tc br bc) :=
    (slide_cells_perm d h9 b tr tc br bc hgt hgb hb).trans hp
  have hinv := inversions_slide h9 hp hgt hgb hne hb
  have hf := findTile_eq_of_perm h1 hp hgb hb
  have hf1 := findTile_eq_of_perm h1 hp1 hgt (cell_slide_tile b tr tc br bc)
  unfold parity
  rw [hf, hf1]
  unfold Adjacent at hadj
  omega

/-- On a permutation board `move` keeps the parity, whatever its argument. -/
theorem parity_move {d : Int} (h1 : 1 ≤ d) (h9 : d ≤ 9) {b : Board} (hp : IsPermBoard d b)
    (tile : Int) : parity d (move d b tile).1 = parity d b := by
  rcases move_zero_or_one d b tile with h | h
  · rw [move_zero_frame d b tile h]
  · obtain ⟨hlo, hhi, tr, tc, br, bc, hgt, hgb, ht, hb, hadj⟩ :=
      (move_eq_one_iff h1 hp tile).1 h
    rw [move_adjacent_eq h1 hp hlo hhi hgt hgb ht hb hadj]
    exact parity_slide h1 h9 hp hgt hgb hb hadj

theorem playFrom_isPermBoard {d : Int} (h1 : 1 ≤ d) (h9 : d ≤ 9) (tiles : List Int) :
    ∀ {b : Board}, IsPermBoard d b → IsPermBoard d (playFrom d b tiles) := by
  induction tiles with
  | nil => intro b h; exact h
  | cons t ts ih => intro b h; exact ih (move_isPermBoard d h1 h9 b t h)

theorem parity_playFrom {d : Int} (h1 : 1 ≤ d) (h9 : d ≤ 9) (tiles : List Int) :
    ∀ {b : Board}, IsPermBoard d b → parity d (playFrom d b tiles) = parity d b := by
  induction tiles with
  | nil => intro b _; rfl
  | cons t ts ih =>
    intro b h
    exact (ih (move_isPermBoard d h1 h9 b t h)).trans (parity_move h1 h9 h t)

/-- The reference layout and the solved layout have the same number of inversions
modulo 2. -/
theorem layouts_inversions (d : Int) (h3 : 3 ≤ d) (h9 : d ≤ 9) :
    inversions ((positions d).map fun p => referenceLayout d (p.1 : Int) (p.2 : Int)) % 2
      = inversions ((positions d).map fun p => solvedLayout d (p.1 : Int) (p.2 : Int)) % 2 := by
  interval_cases d <;> decide!

/-- The parity of the board of `init`. -/
theorem parity_init (d : Int) (h3 : 3 ≤ d) (h9 : d ≤ 9) (b : Board) :
    parity d (init d b)
      = ((inversions ((positions d).map fun p => referenceLayout d (p.1 : Int) (p.2 : Int))
          : Int) + (d - 1) + (d - 1)) % 2 := by
  have hlast : InGrid d (d - 1) (d - 1) := ⟨by omega, by omega, by omega, by omega⟩
  have hz : cell (init d b) (d - 1) (d - 1) = 0 := by
    rw [init_cell d h3 h9 b _ _ hlast]
    unfold referenceLayout reversedLayout
    split_ifs <;> first | omega | ring
  unfold parity
  rw [findTile_eq_of_perm (by omega) (init_isPermBoard d h3 h9 b) hlast hz, cells_init d h3 h9 b]

/-- The parity of a won permutation board. -/
theorem parity_won {d : Int} (h1 : 1 ≤ d) {b : Board} (hp : IsPermBoard d b)
    (hw : won d b = 1) :
    parity d b
      = ((inversions ((positions d).map fun p => solvedLayout d (p.1 : Int) (p.2 : Int))
          : Int) + (d - 1) + (d - 1)) % 2 := by
  have hlast : InGrid d (d - 1) (d - 1) := ⟨by omega, by omega, by omega, by omega⟩
  have hlay := won_perm_layout h1 hp hw
  have hz : cell b (d - 1) (d - 1) = 0 := by
    rw [hlay _ _ hlast]
    unfold solvedLayout
    rw [if_pos ⟨rfl, rfl⟩]
  have hcells : cells d b = (positions d).map fun p => solvedLayout d (p.1 : Int) (p.2 : Int) := by
    rw [cells_eq_map]
    exact List.map_congr_left fun p hp1 => hlay _ _ ((mem_positions d p).1 hp1)
  unfold parity
  rw [findTile_eq_of_perm h1 hp hlast hz, hcells]

/-- The board of `init` and every won permutation board have the same parity. -/
theorem parity_init_eq_won (d : Int) (h3 : 3 ≤ d) (h9 : d ≤ 9) (b0 : Board) {bw : Board}
    (hp : IsPermBoard d bw) (hw : won d bw = 1) : parity d bw = parity d (init d b0) := by
  rw [parity_init d h3 h9 b0, parity_won (by omega) hp hw]
  have := layouts_inversions d h3 h9
  omega

/-! ## The text of `draw` -/

theorem drawCell_eq_specField (v : Int) (h0 : 0 ≤ v) (h80 : v ≤ 80) :
    drawCell v = specField v := by
  interval_cases v <;> decide

theorem specField_length (v : Int) : (specField v).length = 3 := by
  unfold specField
  split_ifs <;> rfl

theorem newline_not_mem_specField (v : Int) (h0 : 0 ≤ v) (h80 : v ≤ 80) :
    newline ∉ specField v := by
  interval_cases v <;> decide

/-- The text of a sequence of fields of three characters. -/
theorem fields_spec (F : Nat → List Char) (n : Nat) (hF : ∀ j, j < n → (F j).length = 3) :
    ((List.range n).flatMap F).length = 3 * n ∧
      ∀ j, j < n → (((List.range n).flatMap F).drop (3 * j)).take 3 = F j := by
  induction n with
  | zero => exact ⟨rfl, fun j hj => absurd hj (Nat.not_lt_zero j)⟩
  | succ n ih =>
    obtain ⟨hl, hf⟩ := ih fun j hj => hF j (by omega)
    have hn := hF n (by omega)
    rw [List.range_succ, List.flatMap_append]
    simp only [List.flatMap_cons, List.flatMap_nil, List.append_nil]
    refine ⟨by rw [List.length_append, hl, hn]; omega, fun j hj => ?_⟩
    by_cases hjn : j = n
    · subst hjn
      rw [List.drop_append_of_le_length (by omega), List.drop_of_length_le (by omega),
        List.nil_append, List.take_of_length_le (by omega)]
    · have hj' : j < n := by omega
      rw [List.drop_append_of_le_length (by omega),
        List.take_append_of_le_length (by rw [List.length_drop, hl]; omega)]
      exact hf j hj'

theorem count_lines (c : Char) (G : Nat → List Char) (n : Nat) (hG : ∀ i, i < n → c ∉ G i) :
    ((List.range n).flatMap fun i => G i ++ [c]).count c = n := by
  induction n with
  | zero => rfl
  | succ n ih =>
    rw [List.range_succ, List.flatMap_append, List.count_append, ih fun i hi => hG i (by omega)]
    simp only [List.flatMap_cons, List.flatMap_nil, List.append_nil, List.count_append,
      List.count_singleton_self]
    rw [List.count_eq_zero_of_not_mem (hG n (by omega))]

/-- The text that `draw` prints for a board with values in `[0, d*d-1]`. -/
theorem draw_spec (d : Int) (h3 : 3 ≤ d) (h9 : d ≤ 9) (b : Board)
    (hv : ∀ i j, InGrid d i j → 0 ≤ cell b i j ∧ cell b i j ≤ d * d - 1) :
    (draw d b).count newline = d.toNat ∧
    (∀ i : Nat, (i : Int) < d →
      (drawLine d b i).length = 3 * d.toNat ∧ newline ∉ drawLine d b i ∧
      ∀ j : Nat, (j : Int) < d →
        ((drawLine d b i).drop (3 * j)).take 3 = specField (cell b i j)) := by
  have hcell : ∀ i j : Nat, (i : Int) < d → (j : Int) < d →
      drawCell (cell b i j) = specField (cell b i j) := by
    intro i j hi hj
    have := hv i j ⟨by omega, hi, by omega, hj⟩
    exact drawCell_eq_specField _ this.1 (by nlinarith)
  have hnl : ∀ i : Nat, (i : Int) < d → newline ∉ drawLine d b i := by
    intro i hi hmem
    unfold drawLine at hmem
    rw [List.mem_flatMap] at hmem
    obtain ⟨j, hj, hm⟩ := hmem
    rw [List.mem_range, Int.lt_toNat] at hj
    rw [hcell i j hi hj] at hm
    have := hv i j ⟨by omega, hi, by omega, hj⟩
    exact newline_not_mem_specField _ this.1 (by nlinarith) hm
  refine ⟨?_, fun i hi => ?_⟩
  · unfold draw
    exact count_lines newline (fun i => drawLine d b i) d.toNat
      fun i hi => hnl i (Int.lt_toNat.1 hi)
  · have hF : ∀ j, j < d.toNat → (drawCell (cell b i (j : Int))).length = 3 := by
      intro j hj
      rw [hcell i j hi (Int.lt_toNat.1 hj)]
      exact specField_length _
    obtain ⟨hl, hf⟩ := fields_spec (fun j => drawCell (cell b i (j : Int))) d.toNat hF
    refine ⟨hl, hnl i hi, fun j hj => ?_⟩
    rw [← hcell i j hi hj]
    exact hf j (Int.lt_toNat.2 hj)

/-! ## The exit code of `main` -/

theorem gameLoop_of_zero_mem (d : Int) (input : List Int) (h : (0 : Int) ∈ input) :
    ∀ b : Board, (gameLoop d input b).isSome = true := by
  induction input with
  | nil => exact absurd h (List.not_mem_nil _)
  | cons t rest ih =>
    intro b
    unfold gameLoop
    by_cases hw : won d b ≠ 0
    · rw [if_pos hw]; rfl
    · rw [if_neg hw]
      by_cases ht : t = 0
      · rw [if_pos ht]; rfl
      · rw [if_neg ht]
        rcases List.mem_cons.1 h with h0 | h0
        · exact absurd h0.symm ht
        · exact ih h0 _

theorem gameLoop_of_win (d : Int) (input : List Int) :
    ∀ (b : Board) (ts : List Int), ts <+: input → won d (playFrom d b ts) ≠ 0 →
      (gameLoop d input b).isSome = true := by
  induction input with
  | nil =>
    intro b ts hpre hw
    rw [List.prefix_nil] at hpre
    subst hpre
    have hw0 : won d b ≠ 0 := hw
    unfold gameLoop
    rw [if_pos hw0]; rfl
  | cons t rest ih =>
    intro b ts hpre hw
    unfold gameLoop
    by_cases hwb : won d b ≠ 0
    · rw [if_pos hwb]; rfl
    · rw [if_neg hwb]
      by_cases ht : t = 0
      · rw [if_pos ht]; rfl
      · rw [if_neg ht]
        cases ts with
        | nil => exact absurd hw hwb
        | cons t1 ts1 =>
          rw [List.cons_prefix_cons] at hpre
          obtain ⟨rfl, hpre1⟩ := hpre
          exact ih _ ts1 hpre1 hw

/-- The exit code of `main`, case by case in the order of its tests. -/
theorem main_spec (argc arg1 : Int) (logOpens : Bool) (input : List Int) (board : Board) :
    (argc ≠ 2 → (main argc arg1 logOpens input board).exit = some 1) ∧
    (argc = 2 → arg1 < 3 ∨ arg1 > 9 → (main argc arg1 logOpens input board).exit = some 2) ∧
    (∀ d, (main argc arg1 logOpens input board).initWith = some d → 3 ≤ d ∧ d ≤ 9) ∧
    (argc = 2 → 3 ≤ arg1 → arg1 ≤ 9 → logOpens = false →
      (main argc arg1 logOpens input board).exit = some 3) ∧
    (argc = 2 → 3 ≤ arg1 → arg1 ≤ 9 → logOpens = true →
      ((main argc arg1 logOpens input board).exit = some 0 ∨
        (main argc arg1 logOpens input board).exit = none) ∧
      ((0 : Int) ∈ input ∨ (∃ ts, ts <+: input ∧ won arg1 (play arg1 board ts) ≠ 0) →
        (main argc arg1 logOpens input board).exit = some 0)) := by
  unfold main DIM_MIN DIM_MAX
  simp only []
  refine ⟨fun h => by rw [if_pos h], fun h hd => by rw [if_neg (not_not.2 h), if_pos hd],
    fun d hd => ?_, fun h h3 h9 hl => ?_, fun h h3 h9 hl => ?_⟩
  · by_cases ha : argc ≠ 2
    · rw [if_pos ha] at hd; exact absurd hd (by simp)
    · rw [if_neg ha] at hd
      by_cases hr : arg1 < 3 ∨ arg1 > 9
      · rw [if_pos hr] at hd; exact absurd hd (by simp)
      · rw [if_neg hr] at hd
        by_cases hl : logOpens = false
        · rw [if_pos hl] at hd; exact absurd hd (by simp)
        · rw [if_neg hl] at hd
          have : arg1 = d := by
            split at hd <;> simpa using hd
          omega
  · rw [if_neg (not_not.2 h), if_neg (by omega), if_pos hl]
  · rw [if_neg (not_not.2 h), if_neg (by omega), if_neg (by simp [hl])]
    constructor
    · split
      · exact Or.inl rfl
      · exact Or.inr rfl
    · intro hend
      have hsome : (gameLoop arg1 input (init arg1 board)).isSome = true := by
        rcases hend with h0 | ⟨ts, hpre, hw⟩
        · exact gameLoop_of_zero_mem arg1 input h0 _
        · exact gameLoop_of_win arg1 input _ ts hpre hw
      split
      · rfl
      · rename_i hnone
        rw [hnone] at hsome
        exact absurd hsome (by simp)

/-- What a call of `move` changes, on every board: nothing, or the values of two
neighbouring cells of the grid, one of which held 0, are exchanged. -/
theorem move_frame_cases (d : Int) (h1 : 1 ≤ d) (b : Board) (tile : Int) :
    (move d b tile).1 = b ∨
    ∃ r c r1 c1, InGrid d r c ∧ InGrid d r1 c1 ∧ Adjacent r c r1 c1 ∧ cell b r1 c1 = 0 ∧
      cell (move d b tile).1 r c = cell b r1 c1 ∧ cell (move d b tile).1 r1 c1 = cell b r c ∧
      ∀ a, a ≠ idx r c → a ≠ idx r1 c1 → (move d b tile).1 a = b a := by
  by_cases hr : tile < 1 ∨ tile > d * d - 1
  · rw [move_out_of_range d b tile hr]
    exact Or.inl rfl
  · rcases move_in_range d h1 b tile (by omega) (by omega) with
      ⟨h, _⟩ | ⟨r1, c1, hg1, hadj, hz, h⟩
    · rw [h]
      exact Or.inl rfl
    · rw [h]
      exact Or.inr ⟨_, _, r1, c1, findTile_inGrid d h1 b tile, hg1, hadj, hz,
        (cell_slide_tile b _ _ r1 c1).trans hz.symm, cell_slide_blank b (adjacent_idx_ne hadj),
        fun a ha ha1 => slide_frame b _ _ r1 c1 a ha ha1⟩

/-- Calling `move(1)` on the board of `init` for d = 3. -/
theorem move_one_after_init (b : Board) :
    (move 3 (init 3 b) 1).2 = 1 ∧
      rows 3 (move 3 (init 3 b) 1).1 = [[8, 7, 6], [5, 4, 3], [2, 0, 1]] := by
  have hc := move_congr (d := 3) (by decide) (init_gridEq 3 (by decide) (by decide) b zeroBoard) 1
  rw [hc.1, rows_eq_of_gridEq hc.2]
  decide

/-! ## The claims, continued -/

/-- C11: for every d in [3,9] and whatever the memory held before, the board produced
by `init` is solvable: some finite sequence of tile numbers, given to `move` in order
from the board of `init`, reaches a board on which `won` returns 1. -/
theorem C11_init_solvable (d : Int) (h3 : 3 ≤ d) (h9 : d ≤ 9) (b : Board) :
    ∃ tiles : List Int, won d (play d b tiles) = 1 :=
  init_solvable d h3 h9 b

/-- Witness of C11 at d = 4 on the zero-initialised memory. -/
theorem C11_init_solvable_witness :
    (3 : Int) ≤ 4 ∧ (4 : Int) ≤ 9 ∧ ∃ tiles : List Int, won 4 (play 4 zeroBoard tiles) = 1 :=
  ⟨by decide, by decide, C11_init_solvable 4 (by decide) (by decide) zeroBoard⟩

/-- C12: for every d in [3,9] and every board whose cells are a permutation of
`0 .. d*d-1`, `won` returns 1 if and only if `board[i][j] == i*d+j+1` for every cell other
than `(d-1,d-1)` and `board[d-1][d-1] == 0`; when it returns 1 the blank is in no other
cell; two permutation boards on which it returns 1 have the same grid; and there is a
permutation board on which it returns 1. -/
theorem C12_won_perm (d : Int) (h3 : 3 ≤ d) (h9 : d ≤ 9) (b : Board)
    (hp : IsPermBoard d b) :
    (won d b = 1 ↔
      (∀ i j, InGrid d i j → ¬ (i = d - 1 ∧ j = d - 1) → cell b i j = i * d + j + 1) ∧
        cell b (d - 1) (d - 1) = 0) ∧
    (won d b = 1 → ∀ i j, InGrid d i j → cell b i j = 0 → i = d - 1 ∧ j = d - 1) ∧
    (∀ b1, IsPermBoard d b1 → won d b = 1 → won d b1 = 1 → GridEq d b b1) ∧
    (∃ b0, IsPermBoard d b0 ∧ won d b0 = 1) := by
  have hlast : InGrid d (d - 1) (d - 1) := ⟨by omega, by omega, by omega, by omega⟩
  refine ⟨⟨fun hw => ?_, fun h => ?_⟩, fun hw i j hg hz => ?_, fun b1 hp1 hw hw1 i j hg => ?_, ?_⟩
  · have hlay := won_perm_layout (by omega) hp hw
    refine ⟨fun i j hg hne => ?_, ?_⟩
    · rw [hlay i j hg]; unfold solvedLayout; rw [if_neg hne]
    · rw [hlay _ _ hlast]; unfold solvedLayout; rw [if_pos ⟨rfl, rfl⟩]
  · refine won_of_layout (by omega) fun i j hg => ?_
    unfold solvedLayout
    by_cases hij : i = d - 1 ∧ j = d - 1
    · rw [if_pos hij, hij.1, hij.2]; exact h.2
    · rw [if_neg hij]; exact h.1 i j hg hij
  · have hlay := won_perm_layout (by omega) hp hw
    by_contra hne
    rw [hlay i j hg] at hz
    unfold solvedLayout at hz
    rw [if_neg hne] at hz
    obtain ⟨hi0, hi, hj0, hj⟩ := hg
    nlinarith
  · rw [won_perm_layout (by omega) hp hw i j hg, won_perm_layout (by omega) hp1 hw1 i j hg]
  · obtain ⟨tiles, hw⟩ := init_solvable d h3 h9 zeroBoard
    exact ⟨_, play_isPermBoard d h3 h9 zeroBoard tiles, hw⟩

/-- Witness of C12: d = 3 on the solved board. -/
theorem C12_won_perm_witness :
    IsPermBoard 3 (ofRows [[1, 2, 3], [4, 5, 6], [7, 8, 0]]) ∧
      won 3 (ofRows [[1, 2, 3], [4, 5, 6], [7, 8, 0]]) = 1 ∧
      cell (ofRows [[1, 2, 3], [4, 5, 6], [7, 8, 0]]) (3 - 1) (3 - 1) = 0 :=
  ⟨by decide, by decide,
    ((C12_won_perm 3 (by decide) (by decide) (ofRows [[1, 2, 3], [4, 5, 6], [7, 8, 0]])
      (by decide)).1.1 (by decide)).2⟩

/-- C13: for every d in [3,9] and every board whose cells hold values in `[0, d*d-1]`,
the text of `draw` is d lines, each ended by a new-line: it has d new-line characters,
none of them inside a line; every line is `3*d` characters long and is made of d
fields of 3 characters, the field of a cell holding 0 being two spaces and an
underscore and the field of any other cell its decimal value right-justified with
leading spaces.  (`draw` has no assignment to `board`: it is a function of the board
that yields only the text.) -/
theorem C13_draw_text (d : Int) (h3 : 3 ≤ d) (h9 : d ≤ 9) (b : Board)
    (hv : ∀ i j, InGrid d i j → 0 ≤ cell b i j ∧ cell b i j ≤ d * d - 1) :
    draw d b = ((List.range d.toNat).map fun (i : Nat) => drawLine d b i ++ [newline]).flatten ∧
    (draw d b).count newline = d.toNat ∧
    (∀ i : Nat, (i : Int) < d →
      (drawLine d b i).length = 3 * d.toNat ∧ newline ∉ drawLine d b i ∧
      ∀ j : Nat, (j : Int) < d →
        ((drawLine d b i).drop (3 * j)).take 3 = specField (cell b i j)) :=
  ⟨rfl, draw_spec d h3 h9 b hv⟩

/-- Witness of C13: d = 3 on the board `[8,7,6],[5,4,3],[2,1,0]`. -/
theorem C13_draw_text_witness :
    (3 : Int) ≤ 3 ∧ (3 : Int) ≤ 9 ∧
      (draw 3 (ofRows [[8, 7, 6], [5, 4, 3], [2, 1, 0]])).count newline = 3 :=
  ⟨by decide, by decide,
    (C13_draw_text 3 (by decide) (by decide) (ofRows [[8, 7, 6], [5, 4, 3], [2, 1, 0]])
      (fun i j hg => by
        obtain ⟨hi0, hi, hj0, hj⟩ := hg
        interval_cases i <;> interval_cases j <;> decide)).2.1⟩

/-- C14: the exit code of `main`, in the order of its tests: 1 whenever `argc != 2`;
otherwise 2 whenever the parsed dimension is below 3 or above 9, and `init` runs only
with a dimension in [3,9]; otherwise 3 when the log file cannot be opened; otherwise
the loop runs, `main` can only return 0, and it does return 0 when a 0 is read or when
the board is won after some of the moves read. -/
theorem C14_main_exit_codes (argc arg1 : Int) (logOpens : Bool) (input : List Int)
    (board : Board) :
    (argc ≠ 2 → (main argc arg1 logOpens input board).exit = some 1) ∧
    (argc = 2 → arg1 < 3 ∨ arg1 > 9 → (main argc arg1 logOpens input board).exit = some 2) ∧
    (∀ d, (main argc arg1 logOpens input board).initWith = some d → 3 ≤ d ∧ d ≤ 9) ∧
    (argc = 2 → 3 ≤ arg1 → arg1 ≤ 9 → logOpens = false →
      (main argc arg1 logOpens input board).exit = some 3) ∧
    (argc = 2 → 3 ≤ arg1 → arg1 ≤ 9 → logOpens = true →
      ((main argc arg1 logOpens input board).exit = some 0 ∨
        (main argc arg1 logOpens input board).exit = none) ∧
      ((0 : Int) ∈ input ∨ (∃ ts, ts <+: input ∧ won arg1 (play arg1 board ts) ≠ 0) →
        (main argc arg1 logOpens input board).exit = some 0)) :=
  main_spec argc arg1 logOpens input board

/-- C15: for every d in [3,9], every content of the board and every tile, `move`
changes nothing or exchanges the values of two orthogonally adjacent cells of the
grid, one of which held 0, and leaves every other word of the memory as it was; the
cells of the grid are the same up to order; and when `move` returns 0 nothing has
changed. -/
theorem C15_move_frame (d : Int) (h3 : 3 ≤ d) (h9 : d ≤ 9) (b : Board) (tile : Int) :
    ((move d b tile).1 = b ∨
      ∃ r c r1 c1, InGrid d r c ∧ InGrid d r1 c1 ∧ Adjacent r c r1 c1 ∧ cell b r1 c1 = 0 ∧
        cell (move d b tile).1 r c = cell b r1 c1 ∧
        cell (move d b tile).1 r1 c1 = cell b r c ∧
        ∀ a, a ≠ idx r c → a ≠ idx r1 c1 → (move d b tile).1 a = b a) ∧
    Multiset.ofList (cells d (move d b tile).1) = Multiset.ofList (cells d b) ∧
    ((move d b tile).2 = 0 → (move d b tile).1 = b) :=
  ⟨move_frame_cases d (by omega) b tile,
    Multiset.coe_eq_coe.2 (move_cells_perm d (by omega) h9 b tile),
    move_zero_frame d b tile⟩

/-- Witness of C15: d = 3, a board with several zeros and without the tile 7. -/
theorem C15_move_frame_witness :
    (3 : Int) ≤ 3 ∧ (3 : Int) ≤ 9 ∧
      Multiset.ofList (cells 3 (move 3 (ofRows [[5, 0, 3], [0, 4, 0], [1, 1, 0]]) 7).1)
        = Multiset.ofList (cells 3 (ofRows [[5, 0, 3], [0, 4, 0], [1, 1, 0]])) :=
  ⟨by decide, by decide,
    (C15_move_frame 3 (by decide) (by decide) (ofRows [[5, 0, 3], [0, 4, 0], [1, 1, 0]]) 7).2.1⟩

/-- C16: for every d in [3,9], every content of the memory and every tile: `move`
writes no word outside the grid; when no neighbour of the found cell inside the
grid holds 0, a tile in range is not moved, whatever the memory outside the grid holds;
and the return value and the new grid are the same for two memories with the same
grid. -/
theorem C16_move_grid_only (d : Int) (h3 : 3 ≤ d) (_h9 : d ≤ 9) (b : Board) (tile : Int) :
    (∀ a, (∀ i j, InGrid d i j → a ≠ idx i j) → (move d b tile).1 a = b a) ∧
    (1 ≤ tile → tile ≤ d * d - 1 →
      (∀ r1 c1, InGrid d r1 c1 →
        Adjacent (findTile d b tile).1 (findTile d b tile).2 r1 c1 → cell b r1 c1 ≠ 0) →
      move d b tile = (b, 0)) ∧
    (∀ b1, GridEq d b b1 →
      (move d b tile).2 = (move d b1 tile).2 ∧ GridEq d (move d b tile).1 (move d b1 tile).1) := by
  refine ⟨fun a ha => move_frame_outside d (by omega) b tile a ha, fun hlo hhi hno => ?_,
    fun b1 h => move_congr (by omega) h tile⟩
  rcases move_in_range d (by omega) b tile hlo hhi with ⟨h, _⟩ | ⟨r1, c1, hg1, hadj, hz, _⟩
  · exact h
  · exact absurd hz (hno r1 c1 hg1 hadj)

/-- Witness of C16: d = 3, tile 6 in the last column of the board
`[8,7,6],[5,4,3],[2,1,0]`, whose right neighbour `board[0][3]` is outside the grid and
holds 0. -/
theorem C16_move_grid_only_witness :
    (3 : Int) ≤ 3 ∧ (3 : Int) ≤ 9 ∧
      cell (ofRows [[8, 7, 6], [5, 4, 3], [2, 1, 0]]) 0 3 = 0 ∧
      move 3 (ofRows [[8, 7, 6], [5, 4, 3], [2, 1, 0]]) 6
        = (ofRows [[8, 7, 6], [5, 4, 3], [2, 1, 0]], 0) :=
  ⟨by decide, by decide, by decide,
    (C16_move_grid_only 3 (by decide) (by decide) (ofRows [[8, 7, 6], [5, 4, 3], [2, 1, 0]])
      6).2.1 (by decide) (by decide)
      (fun r1 c1 hg hadj => by
        have hf : findTile 3 (ofRows [[8, 7, 6], [5, 4, 3], [2, 1, 0]]) 6 = (0, 2) := by decide
        rw [hf] at hadj
        rcases hadj with ⟨rfl, rfl | rfl⟩ | ⟨rfl, rfl | rfl⟩
        · exact absurd hg (by decide)
        · decide
        · decide
        · exact absurd hg (by decide))⟩

/-- C17: for every d in [3,9], every board whose cells are a permutation of
`0 .. d*d-1` and every tile, the variant of `move` that tries the four neighbours in any
order (the 24 permutations of right, left, down, up) returns the same value and
produces the same memory as `move`, which is the variant for the order right, left,
down, up. -/
theorem C17_order_irrelevant (d : Int) (h3 : 3 ≤ d) (_h9 : d ≤ 9) (b : Board)
    (hp : IsPermBoard d b) (tile : Int) :
    (∀ order ∈ sourceOrder.permutations, moveWith order d b tile = move d b tile) ∧
    sourceOrder.permutations.length = 24 ∧
    moveWith sourceOrder d b tile = move d b tile := by
  refine ⟨fun order ho => moveWith_eq_move (by omega) hp order (List.mem_permutations.1 ho) tile,
    ?_, rfl⟩
  rw [List.length_permutations]
  rfl

/-- Witness of C17: d = 3, the board `[8,7,6],[5,4,3],[2,1,0]`, tile 3, the order up, down,
left, right. -/
theorem C17_order_irrelevant_witness :
    IsPermBoard 3 (ofRows [[8, 7, 6], [5, 4, 3], [2, 1, 0]]) ∧
      moveWith [Dir.up, Dir.down, Dir.left, Dir.right] 3
          (ofRows [[8, 7, 6], [5, 4, 3], [2, 1, 0]]) 3
        = move 3 (ofRows [[8, 7, 6], [5, 4, 3], [2, 1, 0]]) 3 :=
  ⟨by decide,
    (C17_order_irrelevant 3 (by decide) (by decide) (ofRows [[8, 7, 6], [5, 4, 3], [2, 1, 0]])
      (by decide) 3).1 _
      (List.mem_permutations.2 (by decide))⟩

/-- C18: for every d in [3,9], every board whose cells are a permutation of
`0 .. d*d-1` and every tile, the parity (inversions of the row-major sequence of all
cells, plus row and column of the blank, modulo 2) is the same after `move(tile)` as
before; it is the same on every board reached from the board of `init` as on that
board; and it is the same on the board of `init` as on every won permutation board. -/
theorem C18_parity_invariant (d : Int) (h3 : 3 ≤ d) (h9 : d ≤ 9) (b : Board)
    (hp : IsPermBoard d b) (tile : Int) :
    parity d (move d b tile).1 = parity d b ∧
    (∀ (b0 : Board) (tiles : List Int), parity d (play d b0 tiles) = parity d (init d b0)) ∧
    (∀ b0 bw : Board, IsPermBoard d bw → won d bw = 1 → parity d bw = parity d (init d b0)) :=
  ⟨parity_move (by omega) h9 hp tile,
    fun b0 tiles => parity_playFrom (by omega) h9 tiles (init_isPermBoard d h3 h9 b0),
    fun b0 _ hpw hw => parity_init_eq_won d h3 h9 b0 hpw hw⟩

/-- Witness of C18: d = 3, the board `[8,7,6],[5,4,3],[2,1,0]`, tile 1. -/
theorem C18_parity_invariant_witness :
    IsPermBoard 3 (ofRows [[8, 7, 6], [5, 4, 3], [2, 1, 0]]) ∧
      parity 3 (move 3 (ofRows [[8, 7, 6], [5, 4, 3], [2, 1, 0]]) 1).1
        = parity 3 (ofRows [[8, 7, 6], [5, 4, 3], [2, 1, 0]]) :=
  ⟨by decide,
    (C18_parity_invariant 3 (by decide) (by decide) (ofRows [[8, 7, 6], [5, 4, 3], [2, 1, 0]])
      (by decide) 1).1⟩

/-- C19, as stated, fails: from the board of `init` for d = 3, `move(1)` does not leave
the rows `[8,7,6],[5,4,3],[0,2,1]`. -/
theorem C19_counterexample :
    ¬ ((move 3 (init 3 zeroBoard) 1).2 = 1 ∧
      rows 3 (move 3 (init 3 zeroBoard) 1).1 = [[8, 7, 6], [5, 4, 3], [0, 2, 1]]) := by
  decide

/-- C19 (amended): for d = 3, whatever the memory held before, from the board of `init`,
`[8,7,6],[5,4,3],[2,1,0]`, `move(1)` returns 1 and the board becomes
`[8,7,6],[5,4,3],[2,0,1]`. -/
theorem C19_move_one (b : Board) :
    rows 3 (init 3 b) = [[8, 7, 6], [5, 4, 3], [2, 1, 0]] ∧ (move 3 (init 3 b) 1).2 = 1 ∧
      rows 3 (move 3 (init 3 b) 1).1 = [[8, 7, 6], [5, 4, 3], [2, 0, 1]] := by
  refine ⟨?_, move_one_after_init b⟩
  rw [rows_init 3 (by decide) (by decide) b]
  decide

end Fifteen
